import Mathlib

/-!
Ad delivery engine of fortnight-graph.

A shallow embedding of `src/services/campaign-delivery.js` (the campaign query,
the selection and padding of candidates, the construction of ads) and of the
story mutations of `src/graph/resolvers/story.js`, followed by the properties
proved about them.

Collaborators outside this file of the service are kept explicit: the document
store evaluates the filter object built by `queryCampaigns` (`Clause`,
`Clause.eval`), lodash shuffles (`shuffle`), the template renderer, the bot
detector, the image resolver and `Utils.cleanValues` are fields of `World`, and
the sources of chance and of fresh values (`Math.random`, `_.random`, `uuidv4`,
`new Date`) are inputs (`Chance`).
-/

namespace Fortnight

/-! ## Values -/

/-- An identifier as JavaScript sees it: `undefined`, `null` or a string. -/
inductive JSId where
  | undefined
  | null
  | str (s : String)
  deriving DecidableEq, Repr

/-- Truthiness of an identifier: only a non-empty string is truthy. -/
def JSId.truthy : JSId → Bool
  | .str s => s != ""
  | _ => false

/-- The expression `x || undefined`. -/
def JSId.orUndefined (x : JSId) : JSId :=
  if x.truthy then x else .undefined

/-- The expression `x || null`. -/
def JSId.orNull (x : JSId) : JSId :=
  if x.truthy then x else .null

/-! ## Campaign documents -/

/-- The stored value of `criteria.end`: the field may be missing, hold `null`,
or hold a date (milliseconds since the epoch). -/
inductive EndDate where
  | absent
  | null
  | date (t : Int)
  deriving DecidableEq, Repr

/-- A creative of a campaign. -/
structure Creative where
  id : String
  active : Bool
  imageId : Option String
  deriving DecidableEq, Repr

/-- The targeting criteria of a campaign. -/
structure Criteria where
  start : Int
  «end» : EndDate
  placementIds : List String
  kvs : List (String × String)
  deriving DecidableEq, Repr

/-- A campaign document. -/
structure Campaign where
  id : JSId
  deleted : Bool
  ready : Bool
  paused : Bool
  criteria : Criteria
  creatives : List Creative
  url : String
  deriving DecidableEq, Repr

/-! ## The filter object and its evaluation by the document store -/

/-- A stored field value, as the document store compares it. -/
inductive BVal where
  | null
  | bool (b : Bool)
  | date (t : Int)
  | str (s : String)
  | strs (xs : List String)
  deriving DecidableEq, Repr

/-- The condition put on one field of the filter object. -/
inductive Cond where
  | eq (v : BVal)
  | lte (v : BVal)
  | gt (v : BVal)
  | «exists» (b : Bool)
  deriving DecidableEq, Repr

/-- One entry of a filter object: a condition on a dotted path, `$and` or `$or`. -/
inductive Clause where
  | field (path : String) (c : Cond)
  | and (cs : List Clause)
  | or (cs : List Clause)
  deriving Repr

/-- The value a campaign document stores under a dotted path (`none`: no such field). -/
def Campaign.lookup (c : Campaign) (path : String) : Option BVal :=
  if path = "deleted" then some (.bool c.deleted)
  else if path = "ready" then some (.bool c.ready)
  else if path = "paused" then some (.bool c.paused)
  else if path = "criteria.start" then some (.date c.criteria.start)
  else if path = "criteria.placementIds" then some (.strs c.criteria.placementIds)
  else if path = "criteria.end" then
    match c.criteria.end with
    | .absent => none
    | .null => some .null
    | .date t => some (.date t)
  else none

/-- Equality match of the document store: a missing field equals `null` only,
an array field matches when one of its elements is the value. -/
def BVal.matchesEq (stored : Option BVal) (v : BVal) : Bool :=
  match stored, v with
  | none, .null => true
  | none, _ => false
  | some (.strs xs), .str s => xs.contains s
  | some w, v => w == v

/-- Comparison `$lte` of the document store: values of another type never match. -/
def BVal.matchesLte (stored : Option BVal) (v : BVal) : Bool :=
  match stored, v with
  | some (.date t), .date d => t ≤ d
  | some (.str a), .str b => a ≤ b
  | _, _ => false

/-- Comparison `$gt` of the document store: values of another type never match. -/
def BVal.matchesGt (stored : Option BVal) (v : BVal) : Bool :=
  match stored, v with
  | some (.date t), .date d => d < t
  | some (.str a), .str b => b < a
  | _, _ => false

/-- Evaluation of one field condition on a stored value. -/
def Cond.eval (stored : Option BVal) : Cond → Bool
  | .eq v => BVal.matchesEq stored v
  | .lte v => BVal.matchesLte stored v
  | .gt v => BVal.matchesGt stored v
  | .exists b => stored.isSome == b

mutual
/-- Whether a campaign document satisfies an entry of a filter object. -/
def Clause.eval (c : Campaign) : Clause → Bool
  | .field path cond => cond.eval (c.lookup path)
  | .and cs => Clause.evalAll c cs
  | .or cs => Clause.evalAny c cs
/-- Whether a document satisfies every entry of a list. -/
def Clause.evalAll (c : Campaign) : List Clause → Bool
  | [] => true
  | x :: xs => Clause.eval c x && Clause.evalAll c xs
/-- Whether a document satisfies some entry of a list. -/
def Clause.evalAny (c : Campaign) : List Clause → Bool
  | [] => false
  | x :: xs => Clause.eval c x || Clause.evalAny c xs
end

/-- The filter object `criteria` that `queryCampaigns` hands to `Campaign.find`.
The key/value argument of `queryCampaigns` takes no part in it. -/
def queryCriteria (startDate : Int) (placementId : String) : List Clause :=
  [ .field "deleted" (.eq (.bool false)),
    .field "ready" (.eq (.bool true)),
    .field "paused" (.eq (.bool false)),
    .field "criteria.start" (.lte (.date startDate)),
    .field "criteria.placementIds" (.eq (.str placementId)),
    .and [ .or [ .field "criteria.end" (.exists false),
                 .field "criteria.end" (.eq .null),
                 .field "criteria.end" (.gt (.date startDate)) ] ] ]

/-- The documents of a collection that satisfy a filter object, in stored order
(`Campaign.find`). -/
def find (store : List Campaign) (criteria : List Clause) : List Campaign :=
  store.filter fun c => Clause.evalAll c criteria

/-! ## Selection of campaigns -/

/-- A number that is `NaN` or an integer: what `parseInt` returns, and the
`limit` that `findFor` passes on. -/
inductive Limit where
  | nan
  | int (z : Int)
  deriving DecidableEq, Repr

/-- The comparison `limit > k` for an integer `k` (false for `NaN`). -/
def Limit.gt (l : Limit) (k : Int) : Bool :=
  match l with
  | .nan => false
  | .int z => decide (k < z)

/-- The comparison `n < limit` for an array length `n` (false for `NaN`). -/
def Limit.ltOf (n : Nat) (l : Limit) : Bool :=
  match l with
  | .nan => false
  | .int z => decide ((n : Int) < z)

/-- The call `array.slice(0, limit)`: `NaN` counts as 0, a negative end counts
from the end of the array, and the end is clamped to the length. -/
def slice0 {α : Type} (xs : List α) : Limit → List α
  | .nan => []
  | .int z => if z < 0 then xs.take (xs.length - z.natAbs) else xs.take z.toNat

/-- Exchange of the elements at two positions of an array. -/
def swap {α : Type} (xs : List α) (i j : Nat) : List α :=
  match xs[i]?, xs[j]? with
  | some a, some b => (xs.set i b).set j a
  | _, _ => xs

/-- The loop of lodash's `shuffleSelf`: at each `index` a position `rand` is
drawn in `[index, length - 1]` and the two elements are exchanged. The drawn
numbers are the input `draw`, reduced to the range. -/
def shuffleSelf {α : Type} (draw : Nat → Nat) : Nat → Nat → List α → List α
  | 0, _, xs => xs
  | steps + 1, index, xs =>
      let rand := index + draw index % (xs.length - index)
      shuffleSelf draw steps (index + 1) (swap xs rand index)

/-- The call `_.shuffle(array)` under the draws `draw`. -/
def shuffle {α : Type} (draw : Nat → Nat) (xs : List α) : List α :=
  shuffleSelf draw xs.length 0 xs

/-- The method `selectCampaigns(campaigns, limit)`. -/
def selectCampaigns {α : Type} (draw : Nat → Nat) (campaigns : List α) (limit : Limit) :
    List α :=
  let shuffled := shuffle draw campaigns
  slice0 shuffled limit

/-! ## Padding with placeholders -/

/-- An element of the candidate array of `findFor`: a campaign document, or a
plain object literal that has an `id` and nothing else. -/
inductive Candidate where
  | doc (c : Campaign)
  | bare (id : JSId)
  deriving DecidableEq, Repr

/-- The placeholder `{ id: null }`. -/
def Candidate.placeholder : Candidate := .bare .null

/-- The `id` of a candidate. -/
def Candidate.id : Candidate → JSId
  | .doc c => c.id
  | .bare i => i

/-- The loop `for (let i = 0; i < n; i += 1) campaigns.push({ id: null })`,
with `n` iterations left. -/
def pushPlaceholders : Nat → List Candidate → List Candidate
  | 0, campaigns => campaigns
  | n + 1, campaigns => pushPlaceholders n (campaigns ++ [Candidate.placeholder])

/-- The method `fillWithFallbacks(campaigns, limit)`; the array it mutates in
place is returned. -/
def fillWithFallbacks (campaigns : List Candidate) (limit : Limit) : List Candidate :=
  if limit.ltOf campaigns.length then
    match limit with
    | .nan => campaigns
    | .int z => pushPlaceholders (z - campaigns.length).toNat campaigns
  else campaigns

/-! ## The argument `num` of `findFor` -/

/-- A JavaScript number: `NaN`, an infinity, an integer, or the number that is
written `m · 10^(-e)` in decimal digits (`0.5` is `decimal 5 1`). A finite
number stands for the numeral that `String(x)` writes for it. -/
inductive JSNumber where
  | nan
  | infinity (negative : Bool)
  | int (z : Int)
  | decimal (m : Int) (e : Nat)
  deriving DecidableEq, Repr

/-- The values of `num` covered here: `undefined`, `null`, a boolean, a number,
or the string that writes a natural number in decimal digits (`"1"` is
`numeral 1`). -/
inductive JSValue where
  | undefined
  | null
  | bool (b : Bool)
  | number (x : JSNumber)
  | numeral (n : Nat)
  deriving DecidableEq, Repr

/-- The conversion `ToNumber`, applied by the comparison `num > 0`. -/
def JSValue.toNumber : JSValue → JSNumber
  | .undefined => .nan
  | .null => .int 0
  | .bool b => .int (if b then 1 else 0)
  | .number x => x
  | .numeral n => .int n

/-- The comparison `x > 0`. -/
def JSNumber.gtZero : JSNumber → Bool
  | .nan => false
  | .infinity negative => !negative
  | .int z => decide (0 < z)
  | .decimal m _ => decide (0 < m)

/-- The first decimal digit of a natural number, with `fuel` divisions left. -/
def leadingDigitAux : Nat → Nat → Nat
  | 0, n => n
  | fuel + 1, n => if n < 10 then n else leadingDigitAux fuel (n / 10)

/-- The first decimal digit of a natural number. -/
def leadingDigit (n : Nat) : Nat :=
  leadingDigitAux n n

/-- The call `parseInt(x, 10)` on a number: the number is first written as a
string, of which `parseInt` reads the sign and the digits in front. A number
whose size is in `[10^(-6), 10^21)` is written plainly, so that its integer
part is read. From `10^21` on and below `10^(-6)` it is written in exponent
form (`1e+21`, `5e-7`), so that its first digit alone is read. `NaN`,
`Infinity` and `-Infinity` hold no digit. -/
def JSNumber.parseInt : JSNumber → Limit
  | .nan => .nan
  | .infinity _ => .nan
  | .int z =>
      if z.natAbs < 10 ^ 21 then .int z
      else .int (z.sign * (leadingDigit z.natAbs : Int))
  | .decimal m e =>
      if m = 0 then .int 0
      else if 10 ^ 21 * 10 ^ e ≤ m.natAbs then .int (m.sign * (leadingDigit m.natAbs : Int))
      else if m.natAbs * 10 ^ 6 < 10 ^ e then .int (m.sign * (leadingDigit m.natAbs : Int))
      else .int (m.tdiv (10 ^ e))

/-- The call `parseInt(num, 10)`: the strings `undefined`, `null`, `true` and
`false` hold no digit. -/
def JSValue.parseInt : JSValue → Limit
  | .undefined => .nan
  | .null => .nan
  | .bool _ => .nan
  | .number x => x.parseInt
  | .numeral n => .int n

/-- The default `num = 1` of the parameter list of `findFor`, which replaces
`undefined` only. -/
def defaultNum (num : JSValue) : JSValue :=
  if num = .undefined then .number (.int 1) else num

/-- The line `const limit = num > 0 ? parseInt(num, 10) : 1;` of `findFor`. -/
def normalizeLimit (num : JSValue) : Limit :=
  if num.toNumber.gtZero then num.parseInt else .int 1

/-! ## Placements, templates, events and ads -/

/-- A failure of a call: an error made by `createError(status, message)`, or
the `TypeError` of calling a method that a plain object does not have. -/
inductive Failure where
  | http (status : Nat) (message : String)
  | typeError
  deriving DecidableEq, Repr

/-- A placement, with the fields `getPlacementAndTemplate` selects. -/
structure Placement where
  id : String
  templateId : String
  reservePct : Option ℚ
  deriving DecidableEq, Repr

/-- A template, with the fields `getPlacementAndTemplate` selects. -/
structure Template where
  id : String
  html : String
  fallback : Option String
  deriving DecidableEq, Repr

/-- Truthiness of `template.fallback`: a non-empty string. -/
def Template.hasFallback (t : Template) : Bool :=
  match t.fallback with
  | some s => s != ""
  | none => false

/-- An image document, with the source that `getSrc` resolves. -/
structure Image where
  id : String
  src : String
  deriving DecidableEq, Repr

/-- Key/value targeting arguments. -/
abbrev KV := List (String × String)

/-- A value handed to the template renderer. -/
inductive TVal where
  | undefined
  | null
  | str (s : String)
  | kv (m : KV)
  | campaign (c : Campaign)
  | creative (c : Creative) (image : Option Image)
  deriving DecidableEq, Repr

/-- An object of template variables: its keys, in order, with their values. -/
abbrev Obj := List (String × TVal)

/-- Assignment of one property of an object. -/
def Obj.set (o : Obj) (k : String) (v : TVal) : Obj :=
  if o.any (fun p => p.1 == k) then o.map (fun p => if p.1 == k then (k, v) else p)
  else o ++ [(k, v)]

/-- The call `Object.assign(target, source)`. -/
def Obj.assign (target source : Obj) : Obj :=
  source.foldl (fun o p => Obj.set o p.1 p.2) target

/-- The value of a property of an object. -/
def Obj.get (o : Obj) (k : String) : TVal :=
  match o.find? (fun p => p.1 == k) with
  | some p => p.2
  | none => .undefined

/-- The classification of a user agent by the bot detector. -/
structure Bot where
  detected : Bool
  value : String
  deriving DecidableEq, Repr

/-- An analytics event. -/
structure AnalyticsEvent where
  e : String
  uuid : String
  cid : JSId
  pid : String
  d : Int
  bot : Bot
  ua : Option String
  kv : KV
  ip : Option String
  deriving DecidableEq, Repr

/-- The ad returned for one candidate. -/
structure Ad where
  campaignId : JSId
  creativeId : JSId
  fallback : Bool
  html : String
  deriving DecidableEq, Repr

/-- The argument `vars` of `findFor`. -/
structure Vars where
  custom : KV
  fallback : Option Obj
  deriving DecidableEq, Repr

/-- The stored data and the collaborators outside `campaign-delivery.js`. -/
structure World where
  placements : List Placement
  templates : List Template
  campaigns : List Campaign
  images : List Image
  accountReservePct : Option ℚ
  render : String → Obj → String
  fallbackFallback : String
  detect : Option String → Bot
  cleanValues : KV → KV
  getSrc : Image → String

/-- The values a call draws: `Math.random()`, the draws of `_.shuffle`, and per
candidate the draw of `_.random`, the result of `uuidv4()` and of `new Date()`. -/
structure Chance where
  random : ℚ
  shuffle : Nat → Nat
  creative : Nat → Nat
  uuid : Nat → String
  now : Int

/-! ## The delivery service -/

/-- The method `queryCampaigns({ startDate, placementId, keyValues, limit })`.
The result of `Utils.cleanValues(keyValues)` is dropped, as in the source. -/
def queryCampaigns (w : World) (draw : Nat → Nat) (startDate : Int)
    (placementId : String) (keyValues : KV) (limit : Limit) : List Campaign :=
  let criteria := queryCriteria startDate placementId
  let _cleaned := w.cleanValues keyValues
  let campaigns := find w.campaigns criteria
  selectCampaigns draw campaigns limit

/-- The method `getPlacementAndTemplate({ placementId })`. -/
def getPlacementAndTemplate (w : World) (placementId : JSId) :
    Except Failure (Placement × Template) :=
  match placementId with
  | .str pid =>
      if pid = "" then .error (.http 400 "No placement ID was provided.")
      else
        match w.placements.find? (fun p => p.id == pid) with
        | none => .error (.http 404 ("No placement exists for ID \x27" ++ pid ++ "\x27"))
        | some placement =>
            match w.templates.find? (fun t => t.id == placement.templateId) with
            | none =>
                .error (.http 404
                  ("No template exists for ID \x27" ++ placement.templateId ++ "\x27"))
            | some template => .ok (placement, template)
  | _ => .error (.http 400 "No placement ID was provided.")

/-- The expression `a || b` on optional numbers: `undefined`, `null` and `0`
are falsy. -/
def orNumber (a b : Option ℚ) : Option ℚ :=
  match a with
  | some x => if x = 0 then b else some x
  | none => b

/-- The line `const reservePct = (rp || ap || 0) / 100;` of `findFor`. -/
def reservePct (rp ap : Option ℚ) : ℚ :=
  ((orNumber (orNumber rp ap) (some 0)).getD 0) / 100

/-- The method `createRequestEvent({ cid, pid, ua, kv, ip })`, with the fresh
`uuid` and the date of the call. -/
def createRequestEvent (w : World) (uuid : String) (d : Int) (cid : JSId) (pid : String)
    (ua : Option String) (kv : KV) (ip : Option String) : AnalyticsEvent :=
  let bot := w.detect ua
  { e := "request", uuid := uuid, cid := cid.orUndefined, pid := pid, d := d,
    bot := bot, ua := ua, kv := kv, ip := ip }

/-- The method `createEmptyAd(campaignId)`. -/
def createEmptyAd (campaignId : JSId) : Ad :=
  { campaignId := campaignId.orNull, creativeId := .null, fallback := true, html := "" }

/-- The method `buildFallbackFor({ template, fallbackVars, event })`. -/
def buildFallbackFor (w : World) (template : Template) (fallbackVars : Option Obj)
    (event : AnalyticsEvent) : Ad :=
  let ad := createEmptyAd event.cid
  if template.hasFallback then
    let vars := Obj.assign (Obj.assign [] (fallbackVars.getD []))
      [("pid", .str event.pid), ("uuid", .str event.uuid), ("kv", .kv event.kv)]
    { ad with html := w.render (template.fallback.getD "") vars }
  else
    let vars : Obj :=
      [("pid", .str event.pid), ("uuid", .str event.uuid), ("kv", .kv event.kv)]
    { ad with html := w.render w.fallbackFallback vars }

/-- The method `getCreativeFor(campaign)` on a campaign document, under the draw
of `_.random(count - 1)`: the chosen creative with the image found for its
`imageId`. -/
def getCreativeFor (w : World) (draw : Nat) (campaign : Campaign) :
    Option (Creative × Option Image) :=
  let count := campaign.creatives.length
  if count = 0 then none
  else
    let index := draw % count
    match campaign.creatives[index]? with
    | none => none
    | some creative =>
        match creative.imageId with
        | some imageId =>
            if imageId != "" then some (creative, w.images.find? (fun i => i.id == imageId))
            else some (creative, none)
        | none => some (creative, none)

/-- The method `buildAdFor({ campaign, template, fallbackVars, event })`. -/
def buildAdFor (w : World) (draw : Nat) (candidate : Candidate) (template : Template)
    (fallbackVars : Option Obj) (event : AnalyticsEvent) : Except Failure Ad :=
  if !candidate.id.truthy then
    .ok (buildFallbackFor w template fallbackVars event)
  else
    match candidate with
    | .bare _ => .error .typeError
    | .doc campaign =>
        match getCreativeFor w draw campaign with
        | none => .ok (buildFallbackFor w template fallbackVars event)
        | some (creative, image) =>
            if !creative.active then .ok (buildFallbackFor w template fallbackVars event)
            else
              let ad := createEmptyAd campaign.id
              let image := image.map fun i => { i with src := w.getSrc i }
              let vars : Obj :=
                [("uuid", .str event.uuid), ("pid", .str event.pid), ("kv", .kv event.kv),
                 ("href", .str campaign.url), ("campaign", .campaign campaign),
                 ("creative", .creative creative image)]
              .ok { ad with html := w.render template.html vars,
                            creativeId := .str creative.id, fallback := false }

/-- The default `vars = { custom: {}, fallback: {} }` of the parameter list of
`findFor`. -/
def defaultVars (vars : Option Vars) : Vars :=
  vars.getD { custom := [], fallback := some [] }

/-- What `findFor` is called with. The parameter list of `findFor` names
`placementId`, `userAgent`, `ipAddress`, `num` and `vars`; a `requestURL` that
the caller puts into the argument object is not read. -/
structure Request where
  placementId : JSId
  userAgent : Option String
  ipAddress : Option String
  num : JSValue
  vars : Option Vars
  requestURL : Option String

/-- A call that `findFor` makes to a sibling method, as the tests spy on them. -/
inductive Call where
  | queryCampaigns (startDate : Int) (placementId : String) (keyValues : KV) (limit : Limit)
  | fillWithFallbacks (limit : Limit)
  | createRequestEvent (event : AnalyticsEvent)
  | buildAdFor (candidate : Candidate)
  deriving DecidableEq, Repr

/-- The outcome of `findFor`: the sibling calls made, in order, and the ads or
the failure. -/
structure Outcome where
  calls : List Call
  result : Except Failure (List Ad)

/-- The body of the `campaigns.map` callback of `findFor` for the candidate at
position `i`: the event created and the result of `buildAdFor`. -/
def deliver (w : World) (ch : Chance) (placement : Placement) (template : Template)
    (req : Request) (vars : Vars) (i : Nat) (campaign : Candidate) :
    AnalyticsEvent × Except Failure Ad :=
  let event := createRequestEvent w (ch.uuid i) ch.now campaign.id placement.id
    req.userAgent vars.custom req.ipAddress
  (event, buildAdFor w (ch.creative i) campaign template vars.fallback event)

/-- The candidates of a call, each with its position. -/
def indexed {α : Type} (xs : List α) : List (Nat × α) :=
  (List.range xs.length).zip xs

/-- The method `findFor({ placementId, userAgent, ipAddress, num, vars })`. -/
def findFor (w : World) (ch : Chance) (req : Request) : Outcome :=
  match getPlacementAndTemplate w req.placementId with
  | .error e => { calls := [], result := .error e }
  | .ok (placement, template) =>
      let num := defaultNum req.num
      let vars := defaultVars req.vars
      let limit := normalizeLimit num
      if limit.gt 10 then
        { calls := [],
          result := .error (.http 400 "You cannot return more than 10 ads in one request.") }
      else if limit.gt 1 then
        { calls := [],
          result := .error (.http 501
            "Requesting more than one ad in a request is not yet implemented.") }
      else
        let rp := placement.reservePct
        let ap := w.accountReservePct
        let reserve := reservePct rp ap
        let queried := decide (ch.random ≥ reserve)
        let found : List Candidate :=
          if queried then
            (queryCampaigns w ch.shuffle ch.now placement.id vars.custom limit).map .doc
          else []
        let campaigns := fillWithFallbacks found limit
        let built := (indexed campaigns).map fun p =>
          deliver w ch placement template req vars p.1 p.2
        { calls :=
            (if queried then [Call.queryCampaigns ch.now placement.id vars.custom limit]
             else [])
            ++ [Call.fillWithFallbacks limit]
            ++ (built.zip campaigns).flatMap fun p =>
                [Call.createRequestEvent p.1.1, Call.buildAdFor p.2],
          result := built.mapM fun p => p.2 }

/-! ## What the methods call and what they touch in the stores -/

/-- The source that a call of `Template.render` is given: `template.html`,
`template.fallback`, or the built-in `Template.getFallbackFallback(true)`. -/
inductive SourceRef where
  | html
  | fallback
  | fallbackFallback
  deriving DecidableEq, Repr

/-- The text of a source. -/
def SourceRef.text (w : World) (template : Template) : SourceRef → String
  | .html => template.html
  | .fallback => template.fallback.getD ""
  | .fallbackFallback => w.fallbackFallback

/-- A call that `buildAdFor` makes, as the tests spy on them: the sibling
methods `getCreativeFor` and `buildFallbackFor`, and `Template.render` with its
source and variables. -/
inductive Step where
  | getCreativeFor
  | buildFallbackFor
  | render (source : SourceRef) (vars : Obj)
  deriving DecidableEq, Repr

/-- The variables that `buildFallbackFor` takes from the event. -/
def eventVars (event : AnalyticsEvent) : Obj :=
  [("pid", .str event.pid), ("uuid", .str event.uuid), ("kv", .kv event.kv)]

/-- The calls made inside `buildFallbackFor({ template, fallbackVars, event })`:
one call of `Template.render`. -/
def buildFallbackForSteps (template : Template) (fallbackVars : Option Obj)
    (event : AnalyticsEvent) : List Step :=
  if template.hasFallback then
    [.render .fallback (Obj.assign (Obj.assign [] (fallbackVars.getD [])) (eventVars event))]
  else
    [.render .fallbackFallback (eventVars event)]

/-- The variables that `buildAdFor` hands to the renderer with `template.html`. -/
def adVars (w : World) (campaign : Campaign) (creative : Creative) (image : Option Image)
    (event : AnalyticsEvent) : Obj :=
  [("uuid", .str event.uuid), ("pid", .str event.pid), ("kv", .kv event.kv),
   ("href", .str campaign.url), ("campaign", .campaign campaign),
   ("creative", .creative creative (image.map fun i => { i with src := w.getSrc i }))]

/-- The calls made by `buildAdFor({ campaign, template, fallbackVars, event })`,
in order. -/
def buildAdForSteps (w : World) (draw : Nat) (candidate : Candidate) (template : Template)
    (fallbackVars : Option Obj) (event : AnalyticsEvent) : List Step :=
  if !candidate.id.truthy then
    Step.buildFallbackFor :: buildFallbackForSteps template fallbackVars event
  else
    match candidate with
    | .bare _ => [Step.getCreativeFor]
    | .doc campaign =>
        match getCreativeFor w draw campaign with
        | none =>
            Step.getCreativeFor :: Step.buildFallbackFor ::
              buildFallbackForSteps template fallbackVars event
        | some (creative, image) =>
            if !creative.active then
              Step.getCreativeFor :: Step.buildFallbackFor ::
                buildFallbackForSteps template fallbackVars event
            else
              [Step.getCreativeFor, Step.render .html (adVars w campaign creative image event)]

/-- The argument object of `createRequestEvent` as a caller may fill it: the
properties that the parameter list names (`cid`, `pid`, `ua`, `kv`, `ip`) and
properties that it does not name (`e`, `uuid`, `bot`). -/
structure EventParams where
  e : Option String
  uuid : Option String
  bot : Option String
  cid : JSId
  pid : String
  ua : Option String
  kv : KV
  ip : Option String

/-- The call `createRequestEvent(params)`: the parameter list takes `cid`,
`pid`, `ua`, `kv` and `ip` out of the object. -/
def createRequestEventOf (w : World) (uuid : String) (d : Int) (params : EventParams) :
    AnalyticsEvent :=
  createRequestEvent w uuid d params.cid params.pid params.ua params.kv params.ip

/-- An operation on a stored collection: a read of a named collection, or the
saving of an analytics event. -/
inductive StoreOp where
  | read (collection : String)
  | saveEvent (event : AnalyticsEvent)
  deriving DecidableEq, Repr

/-- The store operations of `getCreativeFor(campaign)`: `Image.findById` when
the chosen creative has an image. -/
def getCreativeForOps (draw : Nat) (campaign : Campaign) : List StoreOp :=
  let count := campaign.creatives.length
  if count = 0 then []
  else
    match campaign.creatives[draw % count]? with
    | none => []
    | some creative =>
        match creative.imageId with
        | some imageId => if imageId != "" then [.read "image"] else []
        | none => []

/-- The store operations of `buildAdFor`: those of `getCreativeFor`, which is
called for a candidate with a truthy id. -/
def buildAdForOps (draw : Nat) (candidate : Candidate) : List StoreOp :=
  if !candidate.id.truthy then []
  else
    match candidate with
    | .bare _ => []
    | .doc campaign => getCreativeForOps draw campaign

/-- The store operations of `findFor`, in order: `Placement.findOne`,
`Template.findOne`, `Account.retrieve`, `Campaign.find` when the campaigns are
queried, and those of `buildAdFor` for each candidate. The event that
`createRequestEvent` constructs is handed to `buildAdFor`; no method saves it. -/
def findForOps (w : World) (ch : Chance) (req : Request) : List StoreOp :=
  match req.placementId with
  | .str pid =>
      if pid = "" then []
      else
        StoreOp.read "placement" ::
        match w.placements.find? (fun p => p.id == pid) with
        | none => []
        | some placement =>
            StoreOp.read "template" ::
            match w.templates.find? (fun t => t.id == placement.templateId) with
            | none => []
            | some _ =>
                StoreOp.read "account" ::
                let limit := normalizeLimit (defaultNum req.num)
                if limit.gt 1 then []
                else
                  let vars := defaultVars req.vars
                  let queried :=
                    decide (ch.random ≥ reservePct placement.reservePct w.accountReservePct)
                  let found : List Candidate :=
                    if queried then
                      (queryCampaigns w ch.shuffle ch.now placement.id vars.custom limit).map
                        .doc
                    else []
                  (if queried then [StoreOp.read "campaign"] else [])
                  ++ (indexed (fillWithFallbacks found limit)).flatMap fun p =>
                      buildAdForOps (ch.creative p.1) p.2
  | _ => []

/-- The event collection after a list of store operations. -/
def eventsAfter (events : List AnalyticsEvent) (ops : List StoreOp) : List AnalyticsEvent :=
  events ++ ops.filterMap fun op =>
    match op with
    | .saveEvent e => some e
    | .read _ => none

/-- The call `AnalyticsEvent.findOne({ pid })` on an event collection. -/
def findEventByPid (events : List AnalyticsEvent) (pid : String) : Option AnalyticsEvent :=
  events.find? fun e => e.pid == pid

/-- The events constructed by the calls of a list. -/
def createdEvents (calls : List Call) : List AnalyticsEvent :=
  calls.filterMap fun c =>
    match c with
    | .createRequestEvent e => some e
    | _ => none

/-! ## A small instance -/

/-- A campaign that runs on placement `p1` with one active creative. -/
def demoCampaign : Campaign where
  id := .str "c1"
  deleted := false
  ready := true
  paused := false
  criteria := { start := 0, «end» := .absent, placementIds := ["p1"], kvs := [] }
  creatives := [{ id := "k1", active := true, imageId := none }]
  url := "http://www.example.com"

/-- A placement without a reserve of its own. -/
def demoPlacement : Placement where
  id := "p1"
  templateId := "t1"
  reservePct := none

/-- A template without a fallback. -/
def demoTemplate : Template where
  id := "t1"
  html := "<div></div>"
  fallback := none

/-- A store with one placement, one template and one campaign; the renderer
returns the template source. -/
def demoWorld : World where
  placements := [demoPlacement]
  templates := [demoTemplate]
  campaigns := [demoCampaign]
  images := []
  accountReservePct := none
  render := fun source _ => source
  fallbackFallback := "<div>{{{ beacon }}}</div>"
  detect := fun _ => { detected := false, value := "" }
  cleanValues := fun kv => kv
  getSrc := fun i => i.src

/-- The same store under an account reserve of 100 percent. -/
def holdWorld : World :=
  { demoWorld with accountReservePct := some 100 }

/-- The draws of a call. -/
def demoChance : Chance where
  random := 0
  shuffle := fun _ => 0
  creative := fun _ => 0
  uuid := fun _ => "92e998a7-e596-4747-a233-09108938c8d4"
  now := 5

/-- A request for placement `p1` with the given `num`. -/
def demoRequest (num : JSValue) : Request where
  placementId := .str "p1"
  userAgent := none
  ipAddress := none
  num := num
  vars := none
  requestURL := some "https://somedomain.com"

/-- The event of the tests of `buildFallbackFor` and `buildAdFor`. -/
def demoEvent : AnalyticsEvent where
  e := "request"
  uuid := "92e998a7-e596-4747-a233-09108938c8d4"
  cid := .str "5aabc20d62a17f0001bbcba4"
  pid := "5aa03a87be66ee000110c13b"
  d := 5
  bot := { detected := false, value := "" }
  ua := none
  kv := []
  ip := none

/-- The template of the test of `buildFallbackFor` whose fallback refers to the
variables `foo` and `beacon`. -/
def beaconTemplate : Template where
  id := "t2"
  html := ""
  fallback := some "<div>\x7b\x7b foo \x7d\x7d</div>\x7b\x7b\x7b beacon \x7d\x7d\x7d"

/-- The candidates that a list of calls hands to `buildAdFor`. -/
def builtCandidates (calls : List Call) : List Candidate :=
  calls.filterMap fun c =>
    match c with
    | .buildAdFor cand => some cand
    | _ => none

/-- The store operations of `getPlacementAndTemplate({ placementId })`, in
order: none when the id is falsy, else `Placement.findOne`, followed by
`Template.findOne` when the placement is found. -/
def getPlacementAndTemplateOps (w : World) (placementId : JSId) : List StoreOp :=
  match placementId with
  | .str pid =>
      if pid = "" then []
      else
        StoreOp.read "placement" ::
        match w.placements.find? (fun p => p.id == pid) with
        | none => []
        | some _ => [StoreOp.read "template"]
  | _ => []

/-! ## The options of a request -/

/-- A value that `JSON.parse` returns. -/
inductive Json where
  | null
  | bool (b : Bool)
  | num (x : JSNumber)
  | str (s : String)
  | arr (xs : List Json)
  | obj (members : List (String × Json))

/-- The argument of `parseOptions`, as far as the method tells values apart:
the falsy values `undefined`, `null`, `false`, `0`, `NaN` and the empty string,
a string, and any other truthy value (`true`, a number, an object), given with
what `String(options)` yields for it (`none`: the conversion throws). -/
inductive OptionsArg where
  | undefined
  | null
  | false
  | zero
  | nan
  | str (s : String)
  | other (string : Option String)

/-- Truthiness of the argument (`!options` is its negation). -/
def OptionsArg.truthy : OptionsArg → Bool
  | .str s => s != ""
  | .other _ => true
  | _ => Bool.false

/-- The conversion `String(options)` (`none`: it throws). -/
def OptionsArg.string : OptionsArg → Option String
  | .undefined => some "undefined"
  | .null => some "null"
  | .false => some "false"
  | .zero => some "0"
  | .nan => some "NaN"
  | .str s => some s
  | .other s => s

/-- The method `parseOptions(options)`. The built-in `JSON.parse` is the
argument `parse` (`none`: it throws a `SyntaxError`); whatever is thrown inside
the `try` block is caught. -/
def parseOptions (parse : String → Option Json) (options : OptionsArg) : Json :=
  if !options.truthy then .obj []
  else
    match options.string with
    | none => .obj []
    | some text =>
        match parse text with
        | some value => value
        | none => .obj []

/-- A stand-in for `JSON.parse` that knows the two texts of the tests. -/
def demoParse (text : String) : Option Json :=
  if text = "\x7b\x22foo\x22:\x22bar\x22\x7d" then some (.obj [("foo", .str "bar")])
  else none

/-! ## The story mutations of `graph/resolvers/story.js` -/

/-- A stored story. A field that is not set is `none`; `publishedAt` is a date. -/
structure Story where
  id : String
  title : Option String
  teaser : Option String
  body : Option String
  advertiserId : Option String
  publishedAt : Option Int
  disposition : String
  deriving DecidableEq, Repr

/-- The payload of `createStory` and `updateStory`. -/
structure StoryPayload where
  title : Option String
  teaser : Option String
  body : Option String
  advertiserId : Option String
  publishedAt : Option Int
  deriving DecidableEq, Repr

/-- The document that `createStory` hands to `Story.create`. -/
structure StoryDraft where
  title : Option String
  advertiserId : Option String
  publishedAt : Option Int
  disposition : String
  deriving DecidableEq, Repr

/-- A failure of a story mutation: `auth.check()` throws, or the mutation
throws an `Error` with a message. -/
inductive StoryFailure where
  | unauthorized
  | error (message : String)
  deriving DecidableEq, Repr

/-- The expression `publishedAt ? 'Ready' : 'Draft'`; a date is truthy. -/
def dispositionFor (publishedAt : Option Int) : String :=
  if publishedAt.isSome then "Ready" else "Draft"

/-- The mutation `createStory(root, { input }, { auth })`: the document handed
to `Story.create`. `authorized` tells whether `auth.check()` returns. -/
def createStory (authorized : Bool) (payload : StoryPayload) :
    Except StoryFailure StoryDraft :=
  if !authorized then .error .unauthorized
  else
    let disposition := dispositionFor payload.publishedAt
    .ok { title := payload.title, advertiserId := payload.advertiserId,
          publishedAt := payload.publishedAt, disposition := disposition }

/-- The mutation `updateStory(root, { input }, { auth })` on the stored stories:
the story as it is saved. -/
def updateStory (authorized : Bool) (stories : List Story) (id : String)
    (payload : StoryPayload) : Except StoryFailure Story :=
  if !authorized then .error .unauthorized
  else
    match stories.find? (fun s => s.id == id) with
    | none =>
        .error (.error
          ("Unable to update story: no record was found for ID \x27" ++ id ++ "\x27"))
    | some story =>
        let disposition := dispositionFor payload.publishedAt
        let disposition := if story.disposition = "Deleted" then "Deleted" else disposition
        .ok { story with title := payload.title, teaser := payload.teaser,
                         body := payload.body, advertiserId := payload.advertiserId,
                         publishedAt := payload.publishedAt, disposition := disposition }

/-- A stored story that was deleted. -/
def demoStory : Story where
  id := "s1"
  title := some "A story"
  teaser := none
  body := none
  advertiserId := some "a1"
  publishedAt := none
  disposition := "Deleted"

/-! ## Predicates of the specification -/

/-- Eligibility of a campaign for a placement at an instant, in the words of
the specification. -/
def eligible (c : Campaign) (placementId : String) (now : Int) : Prop :=
  c.deleted = false ∧ c.ready = true ∧ c.paused = false ∧ c.criteria.start ≤ now ∧
    placementId ∈ c.criteria.placementIds ∧
    (c.criteria.end = .absent ∨ c.criteria.end = .null ∨
      ∃ t, c.criteria.end = .date t ∧ now < t)

/-! ## Properties -/

/-- The filter object of `queryCampaigns` holds of a document exactly when the
document is eligible. -/
theorem evalAll_queryCriteria (c : Campaign) (startDate : Int) (placementId : String) :
    Clause.evalAll c (queryCriteria startDate placementId) = true ↔
      eligible c placementId startDate := by
  unfold eligible
  rcases c with ⟨id, deleted, ready, paused, ⟨start, e, pids, kvs⟩, creatives, url⟩
  cases e <;>
    simp [queryCriteria, Clause.evalAll, Clause.eval, Clause.evalAny, Cond.eval,
      Campaign.lookup, BVal.matchesEq, BVal.matchesLte, BVal.matchesGt]

/-- C1: the filter built by `queryCampaigns` matches a campaign if and only if
it is not deleted, ready, not paused, started at or before `startDate`, targets
the placement, and has an end that is absent, null or strictly after
`startDate`. A start equal to `startDate` puts no further condition on the
campaign, and a campaign whose end equals `startDate` never matches. -/
theorem queryCriteria_matches_iff (c : Campaign) (startDate : Int) (placementId : String) :
    (Clause.evalAll c (queryCriteria startDate placementId) = true ↔
      c.deleted = false ∧ c.ready = true ∧ c.paused = false ∧
      c.criteria.start ≤ startDate ∧ placementId ∈ c.criteria.placementIds ∧
      (c.criteria.end = .absent ∨ c.criteria.end = .null ∨
        ∃ t, c.criteria.end = .date t ∧ startDate < t)) ∧
    (Clause.evalAll c (queryCriteria c.criteria.start placementId) = true ↔
      c.deleted = false ∧ c.ready = true ∧ c.paused = false ∧
      placementId ∈ c.criteria.placementIds ∧
      (c.criteria.end = .absent ∨ c.criteria.end = .null ∨
        ∃ t, c.criteria.end = .date t ∧ c.criteria.start < t)) ∧
    Clause.evalAll { c with criteria := { c.criteria with «end» := .date startDate } }
      (queryCriteria startDate placementId) = false := by
  refine ⟨evalAll_queryCriteria c startDate placementId, ?_, ?_⟩
  · rw [evalAll_queryCriteria]; unfold eligible; simp
  · rw [Bool.eq_false_iff, Ne, evalAll_queryCriteria]; unfold eligible; simp

/-! ### Selection and padding -/

/-- Exchanging two elements rearranges the list. -/
theorem swap_perm {α : Type} (xs : List α) (i j : Nat) : (swap xs i j).Perm xs := by
  classical
  unfold swap
  by_cases hi : i < xs.length
  · by_cases hj : j < xs.length
    · rw [List.getElem?_eq_getElem hi, List.getElem?_eq_getElem hj]
      simp only
      rw [List.perm_iff_count]
      intro a
      have h1 : j < (xs.set i xs[j]).length := by simpa using hj
      rw [List.count_set _ _ _ _ h1, List.count_set _ _ _ _ hi]
      by_cases hij : i = j
      · subst hij
        simp
        have := List.count_pos_iff.mpr (List.getElem_mem hi)
        split_ifs <;> simp_all
      · rw [List.getElem_set_ne hij]
        have hci := @List.count_pos_iff _ _ _ xs[i] xs |>.mpr (List.getElem_mem hi)
        have hcj := @List.count_pos_iff _ _ _ xs[j] xs |>.mpr (List.getElem_mem hj)
        by_cases e1 : xs[i] = a <;> by_cases e2 : xs[j] = a <;> simp [e1, e2] <;>
          simp_all
    · simp [List.getElem?_eq_none (Nat.le_of_not_lt hj)]
  · simp [List.getElem?_eq_none (Nat.le_of_not_lt hi)]

/-- Every run of the shuffle loop rearranges the array. -/
theorem shuffleSelf_perm {α : Type} (draw : Nat → Nat) (steps index : Nat) (xs : List α) :
    (shuffleSelf draw steps index xs).Perm xs := by
  induction steps generalizing index xs with
  | zero => exact List.Perm.refl _
  | succ n ih =>
      simp only [shuffleSelf]
      exact (ih _ _).trans (swap_perm _ _ _)

/-- The shuffle returns a rearrangement of its argument. -/
theorem shuffle_perm {α : Type} (draw : Nat → Nat) (xs : List α) :
    (shuffle draw xs).Perm xs :=
  shuffleSelf_perm draw xs.length 0 xs

/-- A slice up to a natural number is a prefix. -/
theorem slice0_nat {α : Type} (xs : List α) (n : Nat) :
    slice0 xs (.int (n : Int)) = xs.take n := by
  simp [slice0]

/-- The selection is a prefix of the shuffled list. -/
theorem selectCampaigns_nat {α : Type} (draw : Nat → Nat) (cs : List α) (n : Nat) :
    selectCampaigns draw cs (.int (n : Int)) = (shuffle draw cs).take n := by
  simp [selectCampaigns, slice0_nat]

/-- The selection has as many elements as the list or the limit allows. -/
theorem selectCampaigns_length {α : Type} (draw : Nat → Nat) (cs : List α) (limit : Nat) :
    (selectCampaigns draw cs (.int (limit : Int))).length = min cs.length limit := by
  rw [selectCampaigns_nat, List.length_take, (shuffle_perm draw cs).length_eq, Nat.min_comm]

/-- The selection holds elements of the list, none more often than the list. -/
theorem selectCampaigns_subperm {α : Type} (draw : Nat → Nat) (cs : List α) (limit : Nat) :
    (selectCampaigns draw cs (.int (limit : Int))).Subperm cs := by
  rw [selectCampaigns_nat]
  exact ((List.take_sublist _ _).subperm).trans (shuffle_perm draw cs).subperm

/-- C2: for every list of campaigns, every natural limit and every run of the
shuffle, `selectCampaigns` returns `min (length cs) limit` campaigns, each a
campaign of the list and none more often than in the list; it returns a
rearrangement of the whole list when the limit is at least its length, and the
empty list for the empty list. -/
theorem selectCampaigns_spec (draw : Nat → Nat) (cs : List Campaign) (limit k : Nat) :
    (selectCampaigns draw cs (.int (limit : Int))).length = min cs.length limit ∧
    (∀ c, c ∈ selectCampaigns draw cs (.int (limit : Int)) → c ∈ cs) ∧
    (∀ c, (selectCampaigns draw cs (.int (limit : Int))).count c ≤ cs.count c) ∧
    (selectCampaigns draw cs (.int ((cs.length + k : Nat) : Int))).Perm cs ∧
    selectCampaigns draw ([] : List Campaign) (.int (limit : Int)) = [] := by
  have hsub := selectCampaigns_subperm draw cs limit
  refine ⟨selectCampaigns_length draw cs limit, fun c hc => hsub.subset hc,
    fun c => hsub.count_le c, ?_, ?_⟩
  · rw [selectCampaigns_nat,
      List.take_of_length_le (by rw [(shuffle_perm draw cs).length_eq]; omega)]
    exact shuffle_perm draw cs
  · rw [selectCampaigns_nat]
    simp [shuffle, shuffleSelf]

/-- C3: key/value targeting is a pass-through. For the same store, start date,
placement, limit and run of the shuffle, `queryCampaigns` returns the same
campaigns for any two key/value arguments, whatever `Utils.cleanValues` does
with them: what it returns is the selection among the documents that satisfy a
filter in which the key/values take no part. -/
theorem queryCampaigns_keyValues_irrelevant (w : World) (draw : Nat → Nat) (startDate : Int)
    (placementId : String) (limit : Limit) (keyValues₁ keyValues₂ : KV)
    (clean : KV → KV) :
    queryCampaigns { w with cleanValues := clean } draw startDate placementId keyValues₁ limit =
      queryCampaigns w draw startDate placementId keyValues₂ limit ∧
    queryCampaigns w draw startDate placementId keyValues₁ limit =
      selectCampaigns draw (find w.campaigns (queryCriteria startDate placementId)) limit := by
  unfold queryCampaigns
  exact ⟨rfl, rfl⟩

/-- The loop of `fillWithFallbacks` appends its placeholders. -/
theorem pushPlaceholders_eq (n : Nat) (cs : List Candidate) :
    pushPlaceholders n cs = cs ++ List.replicate n Candidate.placeholder := by
  induction n generalizing cs with
  | zero => simp [pushPlaceholders]
  | succ n ih =>
      simp only [pushPlaceholders]
      rw [ih, List.append_assoc]
      rfl

/-- The array after `fillWithFallbacks`, for an integer limit. -/
theorem fillWithFallbacks_int (cs : List Candidate) (limit : Int) :
    fillWithFallbacks cs (.int limit) =
      if limit ≤ (cs.length : Int) then cs
      else cs ++ List.replicate (limit - cs.length).toNat (Candidate.bare .null) := by
  unfold fillWithFallbacks Limit.ltOf
  by_cases h : (cs.length : Int) < limit
  · simp [h, not_le.mpr h, pushPlaceholders_eq, Candidate.placeholder]
  · simp [h, not_lt.mp h]

/-- C9: for every list of candidates and every integer limit,
`fillWithFallbacks` leaves the list as it is when it has at least `limit`
elements, and otherwise appends `limit - length` placeholders `{ id: null }`
after the elements it had; `[{ id: "1234" }]` with limit 3 becomes
`[{ id: "1234" }, { id: null }, { id: null }]`. -/
theorem fillWithFallbacks_spec (cs : List Candidate) (limit : Int) :
    fillWithFallbacks cs (.int limit) =
        (if limit ≤ (cs.length : Int) then cs
         else cs ++ List.replicate (limit - cs.length).toNat (Candidate.bare .null)) ∧
    fillWithFallbacks [Candidate.bare (.str "1234")] (.int 3) =
        [Candidate.bare (.str "1234"), Candidate.bare .null, Candidate.bare .null] :=
  ⟨fillWithFallbacks_int cs limit, by decide⟩

/-- C10: for every list of campaigns, every natural limit and every run of the
shuffle, the candidates obtained by `selectCampaigns` and then
`fillWithFallbacks` are exactly `limit` many, and they are the selected
campaigns followed by placeholders `{ id: null }` only. -/
theorem candidates_shape (draw : Nat → Nat) (cs : List Campaign) (limit : Nat) :
    (fillWithFallbacks ((selectCampaigns draw cs (.int (limit : Int))).map Candidate.doc)
        (.int (limit : Int))).length = limit ∧
    fillWithFallbacks ((selectCampaigns draw cs (.int (limit : Int))).map Candidate.doc)
        (.int (limit : Int)) =
      (selectCampaigns draw cs (.int (limit : Int))).map Candidate.doc ++
        List.replicate (limit - (selectCampaigns draw cs (.int (limit : Int))).length)
          (Candidate.bare .null) := by
  have hlen := selectCampaigns_length draw cs limit
  rw [fillWithFallbacks_int]
  simp only [List.length_map]
  split_ifs with h
  · have : limit ≤ (selectCampaigns draw cs (.int (limit : Int))).length := by exact_mod_cast h
    have e : (selectCampaigns draw cs (.int (limit : Int))).length = limit := by omega
    simp [e]
  · have : (selectCampaigns draw cs (.int (limit : Int))).length < limit := by
      have := not_le.mp h; exact_mod_cast this
    refine ⟨?_, ?_⟩
    · simp; omega
    · congr 2; omega

/-! ### The call `findFor` -/

/-- A campaign document and the placeholder never make `buildAdFor` fail. -/
theorem buildAdFor_ok (w : World) (draw : Nat) (cand : Candidate) (template : Template)
    (fallbackVars : Option Obj) (event : AnalyticsEvent)
    (h : cand = Candidate.placeholder ∨ ∃ c, cand = Candidate.doc c) :
    ∃ ad, buildAdFor w draw cand template fallbackVars event = .ok ad := by
  rcases h with h | ⟨c, h⟩
  · subst h
    exact ⟨buildFallbackFor w template fallbackVars event,
      by simp [buildAdFor, Candidate.placeholder, Candidate.id, JSId.truthy]⟩
  · subst h
    unfold buildAdFor
    split_ifs
    · exact ⟨_, rfl⟩
    · simp only
      split
      · exact ⟨_, rfl⟩
      · split_ifs <;> exact ⟨_, rfl⟩

/-- The candidates of a call that asks for one ad: one campaign document or one
placeholder. -/
theorem candidates_one (found : List Campaign) (h : found.length ≤ 1) :
    ∃ cand, fillWithFallbacks (found.map Candidate.doc) (.int 1) = [cand] ∧
      ((found = [] ∧ cand = Candidate.placeholder) ∨ ∃ c, found = [c] ∧ cand = Candidate.doc c) := by
  match found, h with
  | [], _ => exact ⟨Candidate.placeholder, by decide, Or.inl ⟨rfl, rfl⟩⟩
  | [c], _ => exact ⟨Candidate.doc c, by simp [fillWithFallbacks, Limit.ltOf], Or.inr ⟨c, rfl, rfl⟩⟩
  | _ :: _ :: _, h => simp at h

/-- The unfolding of `findFor` once the placement and the template are found
and the limit passes both checks. -/
theorem findFor_resolved (w : World) (ch : Chance) (req : Request) (pl : Placement)
    (t : Template) (hres : getPlacementAndTemplate w req.placementId = .ok (pl, t))
    (hlim : (normalizeLimit (defaultNum req.num)).gt 1 = false) :
    findFor w ch req =
      { calls :=
          (if ch.random ≥ reservePct pl.reservePct w.accountReservePct then
            [Call.queryCampaigns ch.now pl.id (defaultVars req.vars).custom
              (normalizeLimit (defaultNum req.num))]
           else [])
          ++ [Call.fillWithFallbacks (normalizeLimit (defaultNum req.num))]
          ++ (((indexed (fillWithFallbacks
                (if ch.random ≥ reservePct pl.reservePct w.accountReservePct then
                  (queryCampaigns w ch.shuffle ch.now pl.id (defaultVars req.vars).custom
                    (normalizeLimit (defaultNum req.num))).map Candidate.doc
                 else []) (normalizeLimit (defaultNum req.num)))).map fun p =>
                deliver w ch pl t req (defaultVars req.vars) p.1 p.2).zip
              (fillWithFallbacks
                (if ch.random ≥ reservePct pl.reservePct w.accountReservePct then
                  (queryCampaigns w ch.shuffle ch.now pl.id (defaultVars req.vars).custom
                    (normalizeLimit (defaultNum req.num))).map Candidate.doc
                 else []) (normalizeLimit (defaultNum req.num)))).flatMap fun p =>
                [Call.createRequestEvent p.1.1, Call.buildAdFor p.2],
        result :=
          ((indexed (fillWithFallbacks
                (if ch.random ≥ reservePct pl.reservePct w.accountReservePct then
                  (queryCampaigns w ch.shuffle ch.now pl.id (defaultVars req.vars).custom
                    (normalizeLimit (defaultNum req.num))).map Candidate.doc
                 else []) (normalizeLimit (defaultNum req.num)))).map fun p =>
                deliver w ch pl t req (defaultVars req.vars) p.1 p.2).mapM fun p => p.2 } := by
  have h10 : (normalizeLimit (defaultNum req.num)).gt 10 = false := by
    cases h : normalizeLimit (defaultNum req.num) with
    | nan => rfl
    | int z =>
        rw [h] at hlim
        simp only [Limit.gt, decide_eq_false_iff_not, not_lt] at hlim ⊢
        omega
  simp only [findFor, hres, hlim, h10, decide_eq_true_eq]
  simp
/-- A call whose limit is 1 returns one ad, built for the one campaign found or
for a placeholder. -/
theorem findFor_one (w : World) (ch : Chance) (req : Request) (pl : Placement) (t : Template)
    (hres : getPlacementAndTemplate w req.placementId = .ok (pl, t))
    (hlim : normalizeLimit (defaultNum req.num) = .int 1) :
    ∃ cand ad,
      buildAdFor w (ch.creative 0) cand t (defaultVars req.vars).fallback
        (createRequestEvent w (ch.uuid 0) ch.now cand.id pl.id req.userAgent
          (defaultVars req.vars).custom req.ipAddress) = .ok ad ∧
      (findFor w ch req).result = .ok [ad] ∧
      ((ch.random ≥ reservePct pl.reservePct w.accountReservePct ∧
          ((queryCampaigns w ch.shuffle ch.now pl.id (defaultVars req.vars).custom (.int 1) = []
              ∧ cand = Candidate.placeholder) ∨
            ∃ c, queryCampaigns w ch.shuffle ch.now pl.id (defaultVars req.vars).custom
                (.int 1) = [c] ∧ cand = Candidate.doc c)) ∨
       (¬ ch.random ≥ reservePct pl.reservePct w.accountReservePct ∧
          cand = Candidate.placeholder)) := by
  have hgt : (normalizeLimit (defaultNum req.num)).gt 1 = false := by rw [hlim]; decide
  have hlen : (queryCampaigns w ch.shuffle ch.now pl.id
      (defaultVars req.vars).custom (.int 1)).length ≤ 1 := by
    have := selectCampaigns_length ch.shuffle
      (find w.campaigns (queryCriteria ch.now pl.id)) 1
    simp only [queryCampaigns]
    exact_mod_cast this.le.trans (Nat.min_le_right _ _)
  rw [findFor_resolved w ch req pl t hres hgt, hlim]
  by_cases hq : ch.random ≥ reservePct pl.reservePct w.accountReservePct
  · obtain ⟨cand, hc, hshape⟩ := candidates_one _ hlen
    have hcand : cand = Candidate.placeholder ∨ ∃ c, cand = Candidate.doc c := by
      rcases hshape with ⟨_, h⟩ | ⟨c, _, h⟩
      · exact Or.inl h
      · exact Or.inr ⟨c, h⟩
    obtain ⟨ad, had⟩ := buildAdFor_ok w (ch.creative 0) cand t
      (defaultVars req.vars).fallback
      (createRequestEvent w (ch.uuid 0) ch.now cand.id pl.id req.userAgent
          (defaultVars req.vars).custom req.ipAddress) hcand
    refine ⟨cand, ad, had, ?_, Or.inl ⟨hq, hshape⟩⟩
    simp only [if_pos hq, hc]
    simp [indexed, deliver, had, List.range_succ]
    rfl
  · obtain ⟨ad, had⟩ := buildAdFor_ok w (ch.creative 0) Candidate.placeholder t
      (defaultVars req.vars).fallback
      (createRequestEvent w (ch.uuid 0) ch.now Candidate.placeholder.id pl.id req.userAgent
          (defaultVars req.vars).custom req.ipAddress) (Or.inl rfl)
    refine ⟨Candidate.placeholder, ad, had, ?_, Or.inr ⟨hq, rfl⟩⟩
    simp only [if_neg hq]
    have hfill : fillWithFallbacks [] (.int 1) = [Candidate.placeholder] := by decide
    rw [hfill]
    simp [indexed, deliver, had, List.range_succ]
    rfl

/-- A call whose limit is 0 or `NaN` returns no ad, and no error. -/
theorem findFor_none (w : World) (ch : Chance) (req : Request) (pl : Placement) (t : Template)
    (hres : getPlacementAndTemplate w req.placementId = .ok (pl, t))
    (hlim : normalizeLimit (defaultNum req.num) = .nan ∨
      normalizeLimit (defaultNum req.num) = .int 0) :
    (findFor w ch req).result = .ok [] := by
  have hgt : (normalizeLimit (defaultNum req.num)).gt 1 = false := by
    rcases hlim with h | h <;> rw [h] <;> decide
  rw [findFor_resolved w ch req pl t hres hgt]
  have hfound : ∀ found : List Campaign,
      fillWithFallbacks ((slice0 found (normalizeLimit (defaultNum req.num))).map Candidate.doc)
        (normalizeLimit (defaultNum req.num)) = [] := by
    intro found
    rcases hlim with h | h <;> rw [h] <;> simp [slice0, fillWithFallbacks, Limit.ltOf]
  have hnil : fillWithFallbacks [] (normalizeLimit (defaultNum req.num)) = [] := by
    rcases hlim with h | h <;> rw [h] <;> simp [fillWithFallbacks, Limit.ltOf]
  by_cases hq : ch.random ≥ reservePct pl.reservePct w.accountReservePct
  · simp only [if_pos hq, queryCampaigns, selectCampaigns, hfound]
    rfl
  · simp only [if_neg hq, hnil]
    rfl

/-- The limit computed from `num` is never a negative integer. -/
theorem normalizeLimit_nonneg (num : JSValue) (z : Int)
    (h : normalizeLimit num = .int z) : 0 ≤ z := by
  unfold normalizeLimit at h
  split_ifs at h with hpos
  · cases num with
    | undefined => simp [JSValue.parseInt] at h
    | null => simp [JSValue.parseInt] at h
    | bool b => simp [JSValue.parseInt] at h
    | numeral n =>
        simp only [JSValue.parseInt, Limit.int.injEq] at h
        omega
    | number x =>
        cases x with
        | nan => simp [JSValue.parseInt, JSNumber.parseInt] at h
        | infinity b => simp [JSValue.parseInt, JSNumber.parseInt] at h
        | int y =>
            have hy : 0 < y := by simpa [JSValue.toNumber, JSNumber.gtZero] using hpos
            simp only [JSValue.parseInt, JSNumber.parseInt] at h
            split_ifs at h
            · simp only [Limit.int.injEq] at h; omega
            · simp only [Limit.int.injEq] at h
              rw [← h, Int.sign_eq_one_of_pos hy]
              omega
        | decimal m e =>
            have hm : 0 < m := by simpa [JSValue.toNumber, JSNumber.gtZero] using hpos
            simp only [JSValue.parseInt, JSNumber.parseInt] at h
            split_ifs at h
            · simp only [Limit.int.injEq] at h; omega
            · simp only [Limit.int.injEq] at h
              rw [← h, Int.sign_eq_one_of_pos hm]
              omega
            · simp only [Limit.int.injEq] at h
              rw [← h, Int.sign_eq_one_of_pos hm]
              omega
            · simp only [Limit.int.injEq] at h
              rw [← h]
              exact Int.tdiv_nonneg hm.le (by positivity)
  · simp only [Limit.int.injEq] at h
    omega

/-- The placement and the template of the small instance are found. -/
theorem demo_resolved (num : JSValue) :
    getPlacementAndTemplate demoWorld (demoRequest num).placementId =
      .ok (demoPlacement, demoTemplate) := by
  rfl

/-- C4: when the placement and its template are found, a `num` that is
`undefined`, `null`, `1`, the string `"1"` or an integer that is at most 0
makes the limit 1, and `findFor` returns exactly one ad, without error. -/
theorem findFor_single_ad (w : World) (ch : Chance) (req : Request) (pl : Placement)
    (t : Template) (hres : getPlacementAndTemplate w req.placementId = .ok (pl, t))
    (hnum : req.num = .undefined ∨ req.num = .null ∨ req.num = .number (.int 1) ∨
      req.num = .numeral 1 ∨ ∃ z : Int, z ≤ 0 ∧ req.num = .number (.int z)) :
    normalizeLimit (defaultNum req.num) = .int 1 ∧
      ∃ ad, (findFor w ch req).result = .ok [ad] := by
  have hlim : normalizeLimit (defaultNum req.num) = .int 1 := by
    rcases hnum with h | h | h | h | ⟨z, hz, h⟩
    · rw [h]; decide
    · rw [h]; decide
    · rw [h]; decide
    · rw [h]; decide
    · rw [h]
      have : ¬ 0 < z := by omega
      simp [defaultNum, normalizeLimit, JSValue.toNumber, JSNumber.gtZero, this]
  obtain ⟨_, ad, _, had, _⟩ := findFor_one w ch req pl t hres hlim
  exact ⟨hlim, ad, had⟩

/-- The instance of C4 for `num = null` on the small instance. -/
theorem findFor_single_ad_witness :
    normalizeLimit (defaultNum (demoRequest .null).num) = .int 1 ∧
      ∃ ad, (findFor demoWorld demoChance (demoRequest .null)).result = .ok [ad] :=
  findFor_single_ad demoWorld demoChance (demoRequest .null) demoPlacement demoTemplate
    (demo_resolved .null) (Or.inr (Or.inl rfl))

/-! ### The checks on `num` -/

/-- The first decimal digit is below 10 when the fuel covers the digits. -/
theorem leadingDigitAux_lt (fuel n : Nat) (h : n < 10 ^ (fuel + 1)) :
    leadingDigitAux fuel n < 10 := by
  induction fuel generalizing n with
  | zero => simpa [leadingDigitAux] using h
  | succ f ih =>
      simp only [leadingDigitAux]
      split_ifs with h10
      · exact h10
      · apply ih
        rw [Nat.div_lt_iff_lt_mul (by norm_num)]
        rw [pow_succ] at h
        exact h

/-- The first decimal digit is below 10. -/
theorem leadingDigit_lt (n : Nat) : leadingDigit n < 10 :=
  leadingDigitAux_lt n n ((Nat.lt_pow_self (by norm_num) n).trans
    (Nat.pow_lt_pow_right (by norm_num) (Nat.lt_succ_self n)))

/-- The two checks of the limit: above 10 the call fails with status 400, from
2 to 10 with status 501, and in both cases before any sibling call. -/
theorem findFor_rejected (w : World) (ch : Chance) (req : Request) (pl : Placement)
    (t : Template) (hres : getPlacementAndTemplate w req.placementId = .ok (pl, t))
    (z : Int) (hlim : normalizeLimit (defaultNum req.num) = .int z) (hz : 1 < z) :
    (findFor w ch req).calls = [] ∧
    (findFor w ch req).result =
      if 10 < z then .error (.http 400 "You cannot return more than 10 ads in one request.")
      else .error (.http 501
        "Requesting more than one ad in a request is not yet implemented.") := by
  simp only [findFor, hres, hlim, Limit.gt]
  by_cases h10 : 10 < z
  · simp [h10]
  · simp [h10, hz]

/-- The limit of an integer `num` between 1 and `10^21` is the integer. -/
theorem normalizeLimit_int (z : Int) (h0 : 0 < z) (h1 : z < 10 ^ 21) :
    normalizeLimit (defaultNum (.number (.int z))) = .int z := by
  have hlt : z.natAbs < 1000000000000000000000 := by omega
  simp [defaultNum, normalizeLimit, JSValue.toNumber, JSNumber.gtZero, JSValue.parseInt,
    JSNumber.parseInt, h0, hlt]

/-- The limit of an integer `num` from `10^21` on is its first digit. -/
theorem normalizeLimit_huge (z : Int) (h : 10 ^ 21 ≤ z) :
    normalizeLimit (defaultNum (.number (.int z))) = .int (leadingDigit z.natAbs) := by
  have h0 : 0 < z := lt_of_lt_of_le (by norm_num) h
  have hge : ¬ z.natAbs < 1000000000000000000000 := by omega
  simp [defaultNum, normalizeLimit, JSValue.toNumber, JSNumber.gtZero, JSValue.parseInt,
    JSNumber.parseInt, h0, hge, Int.sign_eq_one_of_pos h0]

/-- C5: when the placement and its template are found, every integer `num`
with `10 < num < 10^21` makes `findFor` fail with the 400 error, and every
integer from 2 to 10 with the 501 error, in both cases before any campaign is
queried or any ad is built. From `10^21` on the 400 error is never raised: the
limit is the first digit of `num`, and `num = 10^21` is served one ad. -/
theorem findFor_num_checks (w : World) (ch : Chance) (req : Request) (pl : Placement)
    (t : Template) (hres : getPlacementAndTemplate w req.placementId = .ok (pl, t)) :
    (∀ z : Int, 10 < z → z < 10 ^ 21 →
      (findFor w ch { req with num := .number (.int z) }).calls = [] ∧
      (findFor w ch { req with num := .number (.int z) }).result =
        .error (.http 400 "You cannot return more than 10 ads in one request.")) ∧
    (∀ z : Int, 2 ≤ z → z ≤ 10 →
      (findFor w ch { req with num := .number (.int z) }).calls = [] ∧
      (findFor w ch { req with num := .number (.int z) }).result =
        .error (.http 501
          "Requesting more than one ad in a request is not yet implemented.")) ∧
    (∀ z : Int, 10 ^ 21 ≤ z →
      (findFor w ch { req with num := .number (.int z) }).result ≠
        .error (.http 400 "You cannot return more than 10 ads in one request.")) ∧
    (∃ ad, (findFor w ch { req with num := .number (.int (10 ^ 21)) }).result = .ok [ad]) := by
  refine ⟨?_, ?_, ?_, ?_⟩
  · intro z h10 h21
    have h := findFor_rejected w ch { req with num := .number (.int z) } pl t hres z
      (normalizeLimit_int z (by omega) h21) (by omega)
    simpa [h10] using h
  · intro z h2 h10
    have h := findFor_rejected w ch { req with num := .number (.int z) } pl t hres z
      (normalizeLimit_int z (by omega) (by omega)) (by omega)
    simpa [not_lt.mpr h10] using h
  · intro z hz
    have hl := normalizeLimit_huge z hz
    have hd := leadingDigit_lt z.natAbs
    by_cases h1 : 1 < (leadingDigit z.natAbs : Int)
    · have h := (findFor_rejected w ch { req with num := .number (.int z) } pl t hres _
        hl h1).2
      rw [h, if_neg (by omega)]
      simp
    · have hcases : leadingDigit z.natAbs = 0 ∨ leadingDigit z.natAbs = 1 := by omega
      rcases hcases with h0 | h0
      · rw [h0] at hl
        rw [findFor_none w ch { req with num := .number (.int z) } pl t hres (Or.inr hl)]
        simp
      · rw [h0] at hl
        obtain ⟨_, ad, _, had, _⟩ :=
          findFor_one w ch { req with num := .number (.int z) } pl t hres hl
        rw [had]
        simp
  · obtain ⟨_, ad, _, had, _⟩ := findFor_one w ch
      { req with num := .number (.int (10 ^ 21)) } pl t hres
      (show normalizeLimit (defaultNum (.number (.int (10 ^ 21)))) = .int 1 by decide)
    exact ⟨ad, had⟩

/-- The instance of C5 on the small instance. -/
theorem findFor_num_checks_witness :
    (∀ z : Int, 10 < z → z < 10 ^ 21 →
      (findFor demoWorld demoChance
        { demoRequest .null with num := .number (.int z) }).calls = [] ∧
      (findFor demoWorld demoChance
        { demoRequest .null with num := .number (.int z) }).result =
        .error (.http 400 "You cannot return more than 10 ads in one request.")) ∧
    (∀ z : Int, 2 ≤ z → z ≤ 10 →
      (findFor demoWorld demoChance
        { demoRequest .null with num := .number (.int z) }).calls = [] ∧
      (findFor demoWorld demoChance
        { demoRequest .null with num := .number (.int z) }).result =
        .error (.http 501
          "Requesting more than one ad in a request is not yet implemented.")) ∧
    (∀ z : Int, 10 ^ 21 ≤ z →
      (findFor demoWorld demoChance
        { demoRequest .null with num := .number (.int z) }).result ≠
        .error (.http 400 "You cannot return more than 10 ads in one request.")) ∧
    (∃ ad, (findFor demoWorld demoChance
        { demoRequest .null with num := .number (.int (10 ^ 21)) }).result = .ok [ad]) :=
  findFor_num_checks demoWorld demoChance (demoRequest .null) demoPlacement demoTemplate
    (demo_resolved .null)

/-- C6: when the placement and its template are found, a call that returns
without error returns one ad when the limit is 1 and no ad otherwise; the
values `0.5`, `Infinity` and `true` of `num` are served no ad at all, without
error. -/
theorem findFor_ads_count (w : World) (ch : Chance) (req : Request) (pl : Placement)
    (t : Template) (hres : getPlacementAndTemplate w req.placementId = .ok (pl, t)) :
    (∀ ads, (findFor w ch req).result = .ok ads →
      ads.length = if normalizeLimit (defaultNum req.num) = .int 1 then 1 else 0) ∧
    (findFor w ch { req with num := .number (.decimal 5 1) }).result = .ok [] ∧
    (findFor w ch { req with num := .number (.infinity false) }).result = .ok [] ∧
    (findFor w ch { req with num := .bool true }).result = .ok [] := by
  refine ⟨?_, ?_, ?_, ?_⟩
  · intro ads hads
    cases hl : normalizeLimit (defaultNum req.num) with
    | nan =>
        rw [findFor_none w ch req pl t hres (Or.inl hl)] at hads
        cases hads
        simp
    | int z =>
        have hz := normalizeLimit_nonneg _ z hl
        by_cases h1 : 1 < z
        · have h := (findFor_rejected w ch req pl t hres z hl h1).2
          rw [h] at hads
          split_ifs at hads
        · have hcases : z = 0 ∨ z = 1 := by omega
          rcases hcases with h0 | h0
          · subst h0
            rw [findFor_none w ch req pl t hres (Or.inr hl)] at hads
            cases hads
            simp
          · subst h0
            obtain ⟨_, ad, _, had, _⟩ := findFor_one w ch req pl t hres hl
            rw [had] at hads
            cases hads
            simp
  · exact findFor_none w ch { req with num := .number (.decimal 5 1) } pl t hres
      (Or.inr (show normalizeLimit (defaultNum (.number (.decimal 5 1))) = .int 0 by decide))
  · exact findFor_none w ch { req with num := .number (.infinity false) } pl t hres
      (Or.inl (show normalizeLimit (defaultNum (.number (.infinity false))) = .nan by decide))
  · exact findFor_none w ch { req with num := .bool true } pl t hres
      (Or.inl (show normalizeLimit (defaultNum (.bool true)) = .nan by decide))

/-- The instance of C6 on the small instance. -/
theorem findFor_ads_count_witness :
    (∀ ads, (findFor demoWorld demoChance (demoRequest (.number (.int 1)))).result = .ok ads →
      ads.length =
        if normalizeLimit (defaultNum (demoRequest (.number (.int 1))).num) = .int 1 then 1
        else 0) ∧
    (findFor demoWorld demoChance
      { demoRequest (.number (.int 1)) with num := .number (.decimal 5 1) }).result = .ok [] ∧
    (findFor demoWorld demoChance
      { demoRequest (.number (.int 1)) with num := .number (.infinity false) }).result
        = .ok [] ∧
    (findFor demoWorld demoChance
      { demoRequest (.number (.int 1)) with num := .bool true }).result = .ok [] :=
  findFor_ads_count demoWorld demoChance (demoRequest (.number (.int 1))) demoPlacement
    demoTemplate (demo_resolved _)

/-! ### The reserve -/

/-- The reserve, case by case. -/
theorem reservePct_cases (rp ap : Option ℚ) :
    reservePct rp ap =
      match rp, ap with
      | some x, some y => if x ≠ 0 then x / 100 else y / 100
      | some x, none => x / 100
      | none, some y => y / 100
      | none, none => 0 := by
  unfold reservePct orNumber
  rcases rp with _ | x <;> rcases ap with _ | y
  · simp
  · by_cases hy : y = 0 <;> simp [hy]
  · by_cases hx : x = 0 <;> simp [hx]
  · by_cases hx : x = 0 <;> by_cases hy : y = 0 <;> simp [hx, hy]

/-- C7, as stated, fails: a placement reserve of 0 does not override an account
reserve of 50, the reserve is one half and not 0. -/
theorem reservePct_zero_does_not_override :
    reservePct (some 0) (some 50) = 1 / 2 ∧ reservePct (some 0) (some 50) ≠ 0 / 100 := by
  rw [reservePct_cases]
  norm_num

/-- C7, amended: the reserve is the placement's percentage over 100 when that
percentage is set and not 0, otherwise the account's percentage over 100 when
that one is set, otherwise 0; for percentages in 0..100 it lies in [0, 1]. -/
theorem reservePct_spec (x y : ℚ) (hx : 0 ≤ x ∧ x ≤ 100) (hy : 0 ≤ y ∧ y ≤ 100) :
    reservePct (some x) (some y) = (if x ≠ 0 then x / 100 else y / 100) ∧
    reservePct (some x) none = x / 100 ∧
    reservePct none (some y) = y / 100 ∧
    reservePct none none = 0 ∧
    (∀ rp ∈ [none, some x], ∀ ap ∈ [none, some y],
      0 ≤ reservePct rp ap ∧ reservePct rp ap ≤ 1) := by
  obtain ⟨hx0, hx1⟩ := hx
  obtain ⟨hy0, hy1⟩ := hy
  have hxr : 0 ≤ x / 100 ∧ x / 100 ≤ 1 := ⟨by positivity, by linarith⟩
  have hyr : 0 ≤ y / 100 ∧ y / 100 ≤ 1 := ⟨by positivity, by linarith⟩
  refine ⟨reservePct_cases _ _, reservePct_cases _ _, reservePct_cases _ _,
    reservePct_cases _ _, ?_⟩
  intro rp hrp ap hap
  simp only [List.mem_cons, List.mem_singleton, List.not_mem_nil, or_false] at hrp hap
  rw [reservePct_cases]
  rcases hrp with rfl | rfl <;> rcases hap with rfl | rfl
  · norm_num
  · exact hyr
  · exact hxr
  · simp only
    split_ifs
    · exact hxr
    · exact hyr

/-- The instance of C7 for a placement reserve of 25 and an account reserve of 50. -/
theorem reservePct_spec_witness :
    reservePct (some 25) (some 50) = (if (25 : ℚ) ≠ 0 then 25 / 100 else 50 / 100) ∧
    reservePct (some 25) none = 25 / 100 ∧
    reservePct none (some 50) = 50 / 100 ∧
    reservePct none none = 0 ∧
    (∀ rp ∈ [none, some (25 : ℚ)], ∀ ap ∈ [none, some (50 : ℚ)],
      0 ≤ reservePct rp ap ∧ reservePct rp ap ≤ 1) :=
  reservePct_spec 25 50 (by norm_num) (by norm_num)

/-- A limit that passes both checks is `NaN`, 0 or 1. -/
theorem limit_cases (num : JSValue) (h : (normalizeLimit num).gt 1 = false) :
    normalizeLimit num = .nan ∨ normalizeLimit num = .int 0 ∨ normalizeLimit num = .int 1 := by
  cases hl : normalizeLimit num with
  | nan => exact Or.inl rfl
  | int z =>
      have h0 := normalizeLimit_nonneg num z hl
      rw [hl] at h
      simp only [Limit.gt, decide_eq_false_iff_not, not_lt] at h
      have : z = 0 ∨ z = 1 := by omega
      rcases this with rfl | rfl
      · exact Or.inr (Or.inl rfl)
      · exact Or.inr (Or.inr rfl)

/-- The campaigns are queried exactly when the draw reaches the reserve. -/
theorem findFor_queries_iff (w : World) (ch : Chance) (req : Request) (pl : Placement)
    (t : Template) (hres : getPlacementAndTemplate w req.placementId = .ok (pl, t))
    (hlim : (normalizeLimit (defaultNum req.num)).gt 1 = false) :
    (∃ s p kv l, Call.queryCampaigns s p kv l ∈ (findFor w ch req).calls) ↔
      ch.random ≥ reservePct pl.reservePct w.accountReservePct := by
  rw [findFor_resolved w ch req pl t hres hlim]
  by_cases hq : ch.random ≥ reservePct pl.reservePct w.accountReservePct
  · simp [hq]
  · simp [hq]

/-- A call that holds the request back builds its ads for placeholders only,
and every ad is a fallback without campaign and creative. -/
theorem findFor_held_back (w : World) (ch : Chance) (req : Request) (pl : Placement)
    (t : Template) (hres : getPlacementAndTemplate w req.placementId = .ok (pl, t))
    (hlim : (normalizeLimit (defaultNum req.num)).gt 1 = false)
    (hq : ch.random < reservePct pl.reservePct w.accountReservePct) :
    (∀ c, Call.buildAdFor c ∈ (findFor w ch req).calls → c = Candidate.bare .null) ∧
    ∃ ads, (findFor w ch req).result = .ok ads ∧
      (normalizeLimit (defaultNum req.num) = .int 1 → ads.length = 1) ∧
      ∀ ad ∈ ads, ad.fallback = true ∧ ad.campaignId = .null ∧ ad.creativeId = .null := by
  have hnq : ¬ ch.random ≥ reservePct pl.reservePct w.accountReservePct := not_le.mpr hq
  rw [findFor_resolved w ch req pl t hres hlim]
  simp only [if_neg hnq]
  rcases limit_cases _ hlim with h | h | h
  · rw [h]
    have hfill : fillWithFallbacks [] Limit.nan = [] := by decide
    rw [hfill]
    refine ⟨by simp [indexed], [], rfl, by simp, by simp⟩
  · rw [h]
    have hfill : fillWithFallbacks [] (Limit.int 0) = [] := by decide
    rw [hfill]
    refine ⟨by simp [indexed], [], rfl, by simp, by simp⟩
  · rw [h]
    have hfill : fillWithFallbacks [] (Limit.int 1) = [Candidate.bare .null] := by decide
    rw [hfill]
    refine ⟨by simp [indexed, List.range_succ], ?_⟩
    refine ⟨[buildFallbackFor w t (defaultVars req.vars).fallback
      (createRequestEvent w (ch.uuid 0) ch.now .null pl.id req.userAgent
        (defaultVars req.vars).custom req.ipAddress)], ?_, by simp, ?_⟩
    · simp [indexed, List.range_succ, deliver, buildAdFor, Candidate.id, JSId.truthy]
      rfl
    · intro ad had
      simp only [List.mem_singleton] at had
      subst had
      unfold buildFallbackFor
      split_ifs <;>
        simp [createEmptyAd, createRequestEvent, JSId.orUndefined, JSId.orNull, JSId.truthy]

/-- C8: when the placement and its template are found and the limit passes the
checks, `findFor` queries the campaigns if and only if the draw `r` is at least
the reserve `p`. When `r < p` every ad is built for a placeholder and is a
fallback whose `campaignId` and `creativeId` are null (one such ad when the
limit is 1). With `r` in [0, 1), a reserve of 0 always queries and a reserve of
1 never does. -/
theorem findFor_reserve (w : World) (ch : Chance) (req : Request) (pl : Placement)
    (t : Template) (hres : getPlacementAndTemplate w req.placementId = .ok (pl, t))
    (hlim : (normalizeLimit (defaultNum req.num)).gt 1 = false)
    (hr : 0 ≤ ch.random ∧ ch.random < 1) :
    ((∃ s p kv l, Call.queryCampaigns s p kv l ∈ (findFor w ch req).calls) ↔
      ch.random ≥ reservePct pl.reservePct w.accountReservePct) ∧
    (ch.random < reservePct pl.reservePct w.accountReservePct →
      (∀ c, Call.buildAdFor c ∈ (findFor w ch req).calls → c = Candidate.bare .null) ∧
      ∃ ads, (findFor w ch req).result = .ok ads ∧
        (normalizeLimit (defaultNum req.num) = .int 1 → ads.length = 1) ∧
        ∀ ad ∈ ads, ad.fallback = true ∧ ad.campaignId = .null ∧ ad.creativeId = .null) ∧
    (reservePct pl.reservePct w.accountReservePct = 0 →
      ∃ s p kv l, Call.queryCampaigns s p kv l ∈ (findFor w ch req).calls) ∧
    (reservePct pl.reservePct w.accountReservePct = 1 →
      ¬ ∃ s p kv l, Call.queryCampaigns s p kv l ∈ (findFor w ch req).calls) := by
  have hiff := findFor_queries_iff w ch req pl t hres hlim
  refine ⟨hiff, findFor_held_back w ch req pl t hres hlim, ?_, ?_⟩
  · intro h0
    rw [hiff, h0]
    exact hr.1
  · intro h1
    rw [hiff, h1]
    exact not_le.mpr hr.2

/-- The instance of C8 for a draw of 0 under an account reserve of 100. -/
theorem findFor_reserve_witness :
    ((∃ s p kv l, Call.queryCampaigns s p kv l ∈
        (findFor holdWorld demoChance (demoRequest .undefined)).calls) ↔
      demoChance.random ≥ reservePct demoPlacement.reservePct holdWorld.accountReservePct) ∧
    (demoChance.random < reservePct demoPlacement.reservePct holdWorld.accountReservePct →
      (∀ c, Call.buildAdFor c ∈ (findFor holdWorld demoChance (demoRequest .undefined)).calls →
        c = Candidate.bare .null) ∧
      ∃ ads, (findFor holdWorld demoChance (demoRequest .undefined)).result = .ok ads ∧
        (normalizeLimit (defaultNum (demoRequest .undefined).num) = .int 1 → ads.length = 1) ∧
        ∀ ad ∈ ads, ad.fallback = true ∧ ad.campaignId = .null ∧ ad.creativeId = .null) ∧
    (reservePct demoPlacement.reservePct holdWorld.accountReservePct = 0 →
      ∃ s p kv l, Call.queryCampaigns s p kv l ∈
        (findFor holdWorld demoChance (demoRequest .undefined)).calls) ∧
    (reservePct demoPlacement.reservePct holdWorld.accountReservePct = 1 →
      ¬ ∃ s p kv l, Call.queryCampaigns s p kv l ∈
        (findFor holdWorld demoChance (demoRequest .undefined)).calls) :=
  findFor_reserve holdWorld demoChance (demoRequest .undefined) demoPlacement demoTemplate
    (by rfl) (by decide) (by norm_num [demoChance])

/-! ### The construction of ads -/

/-- The ad of the fallback renderer is a fallback without creative, for the
campaign of the event. -/
theorem buildFallbackFor_fields (w : World) (t : Template) (fv : Option Obj)
    (ev : AnalyticsEvent) :
    (buildFallbackFor w t fv ev).fallback = true ∧
    (buildFallbackFor w t fv ev).creativeId = .null ∧
    (buildFallbackFor w t fv ev).campaignId = ev.cid.orNull := by
  unfold buildFallbackFor
  split_ifs <;> simp [createEmptyAd]

/-- The fallback renderer never renders `template.html`. -/
theorem buildFallbackForSteps_no_html (t : Template) (fv : Option Obj) (ev : AnalyticsEvent)
    (vars : Obj) : Step.render .html vars ∉ buildFallbackForSteps t fv ev := by
  unfold buildFallbackForSteps
  split_ifs <;> simp

/-- The html of the fallback ad is the rendering recorded in its steps. -/
theorem buildFallbackFor_html (w : World) (t : Template) (fv : Option Obj)
    (ev : AnalyticsEvent) :
    ∃ src vars, buildFallbackForSteps t fv ev = [Step.render src vars] ∧
      (buildFallbackFor w t fv ev).html = w.render (src.text w t) vars := by
  unfold buildFallbackForSteps buildFallbackFor
  split_ifs
  · exact ⟨_, _, rfl, rfl⟩
  · exact ⟨_, _, rfl, rfl⟩

/-- The three ways in which `buildAdFor` falls back. -/
theorem buildAdFor_falls_back (w : World) (draw : Nat) (cand : Candidate) (t : Template)
    (fv : Option Obj) (ev : AnalyticsEvent)
    (h : cand.id.truthy = false ∨ (∃ c, cand = .doc c ∧ c.creatives = []) ∨
      ∃ c cr img, cand = .doc c ∧ getCreativeFor w draw c = some (cr, img) ∧
        cr.active = false) :
    buildAdFor w draw cand t fv ev = .ok (buildFallbackFor w t fv ev) ∧
    (buildAdForSteps w draw cand t fv ev =
        Step.buildFallbackFor :: buildFallbackForSteps t fv ev ∨
      buildAdForSteps w draw cand t fv ev =
        Step.getCreativeFor :: Step.buildFallbackFor :: buildFallbackForSteps t fv ev) := by
  by_cases hid : cand.id.truthy = false
  · simp [buildAdFor, buildAdForSteps, hid]
  · have hid' : cand.id.truthy = true := by simpa using hid
    rcases h with h | ⟨c, rfl, hc⟩ | ⟨c, cr, img, rfl, hsel, hact⟩
    · exact absurd h hid
    · have hsel : getCreativeFor w draw c = none := by simp [getCreativeFor, hc]
      simp [buildAdFor, buildAdForSteps, hid', hsel]
    · simp [buildAdFor, buildAdForSteps, hid', hsel, hact]

/-- C11: when the campaign id is falsy, the campaign has no creatives, or the
selected creative is inactive, `buildAdFor` returns, without error, exactly the
ad of `buildFallbackFor` for the same template, fallback variables and event,
a fallback without creative; `buildFallbackFor` is called and `template.html`
is never rendered. -/
theorem buildAdFor_fallback_cases (w : World) (draw : Nat) (cand : Candidate) (t : Template)
    (fv : Option Obj) (ev : AnalyticsEvent)
    (h : cand.id.truthy = false ∨ (∃ c, cand = .doc c ∧ c.creatives = []) ∨
      ∃ c cr img, cand = .doc c ∧ getCreativeFor w draw c = some (cr, img) ∧
        cr.active = false) :
    buildAdFor w draw cand t fv ev = .ok (buildFallbackFor w t fv ev) ∧
    (buildFallbackFor w t fv ev).fallback = true ∧
    (buildFallbackFor w t fv ev).creativeId = .null ∧
    Step.buildFallbackFor ∈ buildAdForSteps w draw cand t fv ev ∧
    ∀ vars, Step.render .html vars ∉ buildAdForSteps w draw cand t fv ev := by
  obtain ⟨hres, hsteps⟩ := buildAdFor_falls_back w draw cand t fv ev h
  obtain ⟨hf, hc, _⟩ := buildFallbackFor_fields w t fv ev
  refine ⟨hres, hf, hc, ?_, ?_⟩
  · rcases hsteps with hs | hs <;> rw [hs] <;> simp
  · intro vars
    have hno := buildFallbackForSteps_no_html t fv ev vars
    rcases hsteps with hs | hs <;> rw [hs] <;> simp [hno]

/-- The happy path of `buildAdFor`. -/
theorem buildAdFor_renders (w : World) (draw : Nat) (c : Campaign) (t : Template)
    (fv : Option Obj) (ev : AnalyticsEvent) (cr : Creative) (img : Option Image)
    (hid : c.id.truthy = true) (hsel : getCreativeFor w draw c = some (cr, img))
    (hact : cr.active = true) :
    buildAdFor w draw (.doc c) t fv ev =
      .ok { campaignId := c.id, creativeId := .str cr.id, fallback := false,
            html := w.render t.html (adVars w c cr img ev) } ∧
    buildAdForSteps w draw (.doc c) t fv ev =
      [Step.getCreativeFor, Step.render .html (adVars w c cr img ev)] := by
  constructor
  · simp [buildAdFor, Candidate.id, hid, hsel, hact, createEmptyAd, JSId.orNull, adVars]
  · simp [buildAdForSteps, Candidate.id, hid, hsel, hact]

/-- The creative that `getCreativeFor` returns is the one at the drawn index. -/
theorem getCreativeFor_some (w : World) (draw : Nat) (c : Campaign) (cr : Creative)
    (img : Option Image) (h : getCreativeFor w draw c = some (cr, img)) :
    c.creatives.length ≠ 0 ∧
    c.creatives[draw % c.creatives.length]? = some cr := by
  unfold getCreativeFor at h
  simp only at h
  split_ifs at h with h0
  refine ⟨h0, ?_⟩
  split at h
  · cases h
  · rename_i creative hget
    rw [hget]
    split at h
    · split_ifs at h <;> simp only [Option.some.injEq, Prod.mk.injEq] at h <;> rw [h.1]
    · simp only [Option.some.injEq, Prod.mk.injEq] at h
      rw [h.1]

/-- C12: when the campaign id is truthy and the selected creative is active,
`buildAdFor` returns the ad with the campaign's id, the creative's id,
`fallback` false and the rendering of `template.html` with the event's `uuid`,
`pid` and `kv`, `href` equal to the campaign's url, the campaign and the
selected creative; `buildFallbackFor` is not called. -/
theorem buildAdFor_rendered (w : World) (draw : Nat) (c : Campaign) (t : Template)
    (fv : Option Obj) (ev : AnalyticsEvent) (cr : Creative) (img : Option Image)
    (hid : c.id.truthy = true) (hsel : getCreativeFor w draw c = some (cr, img))
    (hact : cr.active = true) :
    buildAdFor w draw (.doc c) t fv ev =
      .ok { campaignId := c.id, creativeId := .str cr.id, fallback := false,
            html := w.render t.html (adVars w c cr img ev) } ∧
    Obj.get (adVars w c cr img ev) "uuid" = .str ev.uuid ∧
    Obj.get (adVars w c cr img ev) "pid" = .str ev.pid ∧
    Obj.get (adVars w c cr img ev) "kv" = .kv ev.kv ∧
    Obj.get (adVars w c cr img ev) "href" = .str c.url ∧
    Obj.get (adVars w c cr img ev) "campaign" = .campaign c ∧
    Obj.get (adVars w c cr img ev) "creative" =
      .creative cr (img.map fun i => { i with src := w.getSrc i }) ∧
    cr ∈ c.creatives ∧
    buildAdForSteps w draw (.doc c) t fv ev =
      [Step.getCreativeFor, Step.render .html (adVars w c cr img ev)] ∧
    Step.buildFallbackFor ∉ buildAdForSteps w draw (.doc c) t fv ev := by
  obtain ⟨h1, h2⟩ := buildAdFor_renders w draw c t fv ev cr img hid hsel hact
  refine ⟨h1, rfl, rfl, rfl, rfl, rfl, rfl, ?_, h2, ?_⟩
  · exact List.getElem?_mem (getCreativeFor_some w draw c cr img hsel).2
  · rw [h2]; simp
/-- Every way through `buildAdFor`: it falls back, or it renders `template.html`
with an active creative of the campaign. -/
theorem buildAdFor_cases (w : World) (draw : Nat) (cand : Candidate) (t : Template)
    (fv : Option Obj) (ev : AnalyticsEvent) (ad : Ad)
    (h : buildAdFor w draw cand t fv ev = .ok ad) :
    (ad = buildFallbackFor w t fv ev ∧
      (buildAdForSteps w draw cand t fv ev =
          Step.buildFallbackFor :: buildFallbackForSteps t fv ev ∨
        buildAdForSteps w draw cand t fv ev =
          Step.getCreativeFor :: Step.buildFallbackFor :: buildFallbackForSteps t fv ev)) ∨
    ∃ c cr img, cand = .doc c ∧ c.id.truthy = true ∧ cr ∈ c.creatives ∧ cr.active = true ∧
      ad = { campaignId := c.id, creativeId := .str cr.id, fallback := false,
             html := w.render t.html (adVars w c cr img ev) } ∧
      buildAdForSteps w draw cand t fv ev =
        [Step.getCreativeFor, Step.render .html (adVars w c cr img ev)] := by
  by_cases hid : cand.id.truthy = false
  · obtain ⟨h1, h2⟩ := buildAdFor_falls_back w draw cand t fv ev (Or.inl hid)
    rw [h1] at h
    cases h
    exact Or.inl ⟨rfl, h2⟩
  · have hid' : cand.id.truthy = true := by simpa using hid
    cases cand with
    | bare i => simp [buildAdFor, hid'] at h
    | doc c =>
        cases hsel : getCreativeFor w draw c with
        | none =>
            left
            have h1 : buildAdFor w draw (.doc c) t fv ev = .ok (buildFallbackFor w t fv ev) := by
              simp [buildAdFor, hid', hsel]
            rw [h1] at h
            cases h
            exact ⟨rfl, Or.inr (by simp [buildAdForSteps, hid', hsel])⟩
        | some p =>
            obtain ⟨cr, img⟩ := p
            by_cases hact : cr.active = true
            · right
              obtain ⟨h1, h2⟩ := buildAdFor_renders w draw c t fv ev cr img hid' hsel hact
              rw [h1] at h
              cases h
              exact ⟨c, cr, img, rfl, hid', List.getElem?_mem
                (getCreativeFor_some w draw c cr img hsel).2, hact, rfl, h2⟩
            · left
              have hact' : cr.active = false := by simpa using hact
              obtain ⟨h1, h2⟩ := buildAdFor_falls_back w draw (.doc c) t fv ev
                (Or.inr (Or.inr ⟨c, cr, img, rfl, hsel, hact'⟩))
              rw [h1] at h
              cases h
              exact ⟨rfl, h2⟩

/-- A truthy identifier is not null. -/
theorem JSId.ne_null_of_truthy (i : JSId) (h : i.truthy = true) : i ≠ .null := by
  intro hn
  rw [hn] at h
  simp [JSId.truthy] at h

/-- C13: the ads of `createEmptyAd` and `buildFallbackFor` are fallbacks
without creative. An ad of `buildAdFor` is a fallback if and only if
`template.html` was not rendered, and is no fallback if and only if it was
rendered with an active creative of the campaign, whose id the ad carries; a
fallback has a null `creativeId`, and an ad that is no fallback has the
campaign's id, which is not null. -/
theorem ad_fallback_invariant (w : World) (draw : Nat) (cand : Candidate) (t : Template)
    (fv : Option Obj) (ev : AnalyticsEvent) (id : JSId) :
    ((createEmptyAd id).fallback = true ∧ (createEmptyAd id).creativeId = .null) ∧
    ((buildFallbackFor w t fv ev).fallback = true ∧
      (buildFallbackFor w t fv ev).creativeId = .null ∧
      ∀ vars, Step.render .html vars ∉ buildFallbackForSteps t fv ev) ∧
    (∀ ad, buildAdFor w draw cand t fv ev = .ok ad →
      (ad.fallback = true ↔
        ∀ vars, Step.render .html vars ∉ buildAdForSteps w draw cand t fv ev) ∧
      (ad.fallback = false ↔
        ∃ c cr img, cand = .doc c ∧ cr ∈ c.creatives ∧ cr.active = true ∧
          Step.render .html (adVars w c cr img ev) ∈ buildAdForSteps w draw cand t fv ev ∧
          ad.creativeId = .str cr.id) ∧
      (ad.fallback = true → ad.creativeId = .null) ∧
      (ad.fallback = false → ad.campaignId ≠ .null ∧ ad.campaignId = cand.id)) := by
  obtain ⟨hf, hc, _⟩ := buildFallbackFor_fields w t fv ev
  refine ⟨⟨rfl, rfl⟩, ⟨hf, hc, buildFallbackForSteps_no_html t fv ev⟩, ?_⟩
  intro ad had
  rcases buildAdFor_cases w draw cand t fv ev ad had with
    ⟨rfl, hsteps⟩ | ⟨c, cr, img, rfl, hid, hmem, hact, rfl, hsteps⟩
  · have hno : ∀ vars, Step.render .html vars ∉ buildAdForSteps w draw cand t fv ev := by
      intro vars
      have := buildFallbackForSteps_no_html t fv ev vars
      rcases hsteps with hs | hs <;> rw [hs] <;> simp [this]
    refine ⟨⟨fun _ => hno, fun _ => hf⟩, ⟨?_, ?_⟩, fun _ => hc, ?_⟩
    · intro h
      rw [hf] at h
      cases h
    · rintro ⟨c, cr, img, _, _, _, hin, _⟩
      exact absurd hin (hno _)
    · intro h
      rw [hf] at h
      cases h
  · refine ⟨⟨?_, ?_⟩, ⟨?_, ?_⟩, ?_, ?_⟩
    · intro h
      cases h
    · intro h
      exact absurd (by rw [hsteps]; simp) (h (adVars w c cr img ev))
    · intro _
      exact ⟨c, cr, img, rfl, hmem, hact, by rw [hsteps]; simp, rfl⟩
    · intro _
      rfl
    · intro h
      cases h
    · intro _
      exact ⟨JSId.ne_null_of_truthy c.id hid, rfl⟩

/-- C16: `createEmptyAd(id)` is the ad with `creativeId` null, `fallback` true
and empty `html`, whose `campaignId` is `id` when `id` is truthy and null when
`id` is the empty string, `undefined` or `null`. -/
theorem createEmptyAd_spec (id : JSId) :
    (id.truthy = true →
      createEmptyAd id = { campaignId := id, creativeId := .null, fallback := true, html := "" }) ∧
    (id.truthy = false →
      createEmptyAd id =
        { campaignId := .null, creativeId := .null, fallback := true, html := "" }) ∧
    createEmptyAd (.str "1234") =
      { campaignId := .str "1234", creativeId := .null, fallback := true, html := "" } ∧
    createEmptyAd (.str "") =
      { campaignId := .null, creativeId := .null, fallback := true, html := "" } ∧
    createEmptyAd .undefined =
      { campaignId := .null, creativeId := .null, fallback := true, html := "" } ∧
    createEmptyAd .null =
      { campaignId := .null, creativeId := .null, fallback := true, html := "" } := by
  refine ⟨?_, ?_, by decide, by decide, by decide, by decide⟩
  · intro h
    simp [createEmptyAd, JSId.orNull, h]
  · intro h
    simp [createEmptyAd, JSId.orNull, h]

/-- C17: `getCreativeFor` returns null for a campaign without creatives. With
at least one creative, for every draw, the index lies below the count and the
creative returned is the campaign's creative at that index, hence one of its
creatives and the only one when the count is 1; every index is drawn by some
draw. -/
theorem getCreativeFor_spec (w : World) (draw : Nat) (c : Campaign) :
    (c.creatives = [] → getCreativeFor w draw c = none) ∧
    (c.creatives ≠ [] →
      draw % c.creatives.length < c.creatives.length ∧
      ∃ cr img, getCreativeFor w draw c = some (cr, img) ∧
        c.creatives[draw % c.creatives.length]? = some cr ∧ cr ∈ c.creatives ∧
        (c.creatives.length = 1 → c.creatives = [cr])) ∧
    (∀ i, i < c.creatives.length →
      ∃ cr img, getCreativeFor w i c = some (cr, img) ∧ c.creatives[i]? = some cr) := by
  have key : ∀ d, c.creatives ≠ [] →
      ∃ cr img, getCreativeFor w d c = some (cr, img) ∧
        c.creatives[d % c.creatives.length]? = some cr := by
    intro d hne
    have hpos : 0 < c.creatives.length := List.length_pos.mpr hne
    have hlt : d % c.creatives.length < c.creatives.length := Nat.mod_lt _ hpos
    have hget : c.creatives[d % c.creatives.length]? =
        some (c.creatives[d % c.creatives.length]) := List.getElem?_eq_getElem hlt
    unfold getCreativeFor
    simp only [Nat.pos_iff_ne_zero.mp hpos, if_false, hget]
    split
    · split_ifs
      · exact ⟨_, _, rfl, rfl⟩
      · exact ⟨_, _, rfl, rfl⟩
    · exact ⟨_, _, rfl, rfl⟩
  refine ⟨?_, ?_, ?_⟩
  · intro h
    simp [getCreativeFor, h]
  · intro hne
    have hpos : 0 < c.creatives.length := List.length_pos.mpr hne
    refine ⟨Nat.mod_lt _ hpos, ?_⟩
    obtain ⟨cr, img, h1, h2⟩ := key draw hne
    refine ⟨cr, img, h1, h2, List.getElem?_mem h2, ?_⟩
    intro h1len
    match hc : c.creatives, h1len with
    | [x], _ =>
        rw [hc] at h2
        simp only [List.length_singleton, Nat.mod_one, List.getElem?_cons_zero,
          Option.some.injEq] at h2
        rw [h2]
  · intro i hi
    have hne : c.creatives ≠ [] := by
      intro h
      rw [h] at hi
      simp at hi
    obtain ⟨cr, img, h1, h2⟩ := key i hne
    rw [Nat.mod_eq_of_lt hi] at h2
    exact ⟨cr, img, h1, h2⟩

/-- C19: the event of `createRequestEvent` has type `request`, the fresh uuid,
the given `pid`, `ua`, `kv` and `ip`, and the given `cid` when it is truthy,
`undefined` when it is the empty string, `null` or `undefined`; an `e`, `uuid`
or `bot` that the caller supplies changes nothing. -/
theorem createRequestEvent_spec (w : World) (uuid : String) (d : Int) (params : EventParams) :
    (createRequestEventOf w uuid d params).e = "request" ∧
    (createRequestEventOf w uuid d params).uuid = uuid ∧
    (createRequestEventOf w uuid d params).pid = params.pid ∧
    (createRequestEventOf w uuid d params).ua = params.ua ∧
    (createRequestEventOf w uuid d params).kv = params.kv ∧
    (createRequestEventOf w uuid d params).ip = params.ip ∧
    (createRequestEventOf w uuid d params).bot = w.detect params.ua ∧
    (createRequestEventOf w uuid d params).d = d ∧
    (params.cid.truthy = true → (createRequestEventOf w uuid d params).cid = params.cid) ∧
    (params.cid.truthy = false → (createRequestEventOf w uuid d params).cid = .undefined) ∧
    (∀ e u b, createRequestEventOf w uuid d { params with e := e, uuid := u, bot := b } =
      createRequestEventOf w uuid d params) ∧
    (createRequestEventOf w uuid d { params with cid := .str "" }).cid = .undefined ∧
    (createRequestEventOf w uuid d { params with cid := .null }).cid = .undefined ∧
    (createRequestEventOf w uuid d { params with cid := .undefined }).cid = .undefined := by
  refine ⟨rfl, rfl, rfl, rfl, rfl, rfl, rfl, rfl, ?_, ?_, fun _ _ _ => rfl, rfl, rfl, rfl⟩
  · intro h
    simp [createRequestEventOf, createRequestEvent, JSId.orUndefined, h]
  · intro h
    simp [createRequestEventOf, createRequestEvent, JSId.orUndefined, h]

/-! ### Template variables -/

/-- Reading the property that was just assigned. -/
theorem Obj.get_set_self (o : Obj) (k : String) (v : TVal) :
    Obj.get (Obj.set o k v) k = v := by
  have hfound : ∀ o : Obj, o.any (fun p => p.1 == k) = true →
      (o.map (fun p => if p.1 == k then (k, v) else p)).find? (fun p => p.1 == k)
        = some (k, v) := by
    intro o
    induction o with
    | nil => simp
    | cons p o ih =>
        intro h
        by_cases hp : p.1 = k
        · have hhead : (if (p.1 == k) = true then (k, v) else p) = (k, v) := by simp [hp]
          simp only [List.map_cons, hhead]
          exact List.find?_cons_of_pos _ (by simp)
        · have hp' : (p.1 == k) = false := by simpa using hp
          have hhead : (if (p.1 == k) = true then (k, v) else p) = p := by simp [hp]
          simp only [List.any_cons, hp', Bool.false_or] at h
          simp only [List.map_cons, hhead]
          rw [List.find?_cons_of_neg _ (by simp [hp])]
          exact ih h
  unfold Obj.get Obj.set
  by_cases hany : o.any (fun p => p.1 == k) = true
  · rw [if_pos hany, hfound o hany]
  · rw [if_neg hany]
    have hnone : o.find? (fun p => p.1 == k) = none := by
      rw [List.find?_eq_none]
      intro p hp hk
      exact hany (List.any_eq_true.mpr ⟨p, hp, hk⟩)
    simp [List.find?_append, hnone]

/-- Reading another property than the one that was just assigned. -/
theorem Obj.get_set_ne (o : Obj) (k k' : String) (v : TVal) (h : k' ≠ k) :
    Obj.get (Obj.set o k v) k' = Obj.get o k' := by
  have hk : (k == k') = false := by simpa using fun e => h e.symm
  have hmap : ∀ o : Obj,
      (o.map (fun p => if p.1 == k then (k, v) else p)).find? (fun p => p.1 == k')
        = o.find? (fun p => p.1 == k') := by
    intro o
    induction o with
    | nil => simp
    | cons p o ih =>
        by_cases hp : p.1 = k
        · have hp' : ¬ (p.1 == k') = true := by rw [hp, hk]; simp
          have hhead : (if (p.1 == k) = true then (k, v) else p) = (k, v) := by simp [hp]
          simp only [List.map_cons, hhead]
          have e1 : ∀ l : Obj, List.find? (fun q : String × TVal => q.1 == k') ((k, v) :: l) =
              List.find? (fun q : String × TVal => q.1 == k') l :=
            fun l => List.find?_cons_of_neg l (by simp [hk])
          have e2 : List.find? (fun q : String × TVal => q.1 == k') (p :: o) =
              List.find? (fun q : String × TVal => q.1 == k') o :=
            List.find?_cons_of_neg o hp'
          rw [e1, e2]
          exact ih
        · have hhead : (if (p.1 == k) = true then (k, v) else p) = p := by simp [hp]
          simp only [List.map_cons, hhead]
          by_cases hpk' : (p.1 == k') = true
          · have e : ∀ l : Obj, List.find? (fun q : String × TVal => q.1 == k') (p :: l) =
                some p := fun l => List.find?_cons_of_pos l hpk'
            rw [e, e]
          · have e : ∀ l : Obj, List.find? (fun q : String × TVal => q.1 == k') (p :: l) =
                List.find? (fun q : String × TVal => q.1 == k') l :=
              fun l => List.find?_cons_of_neg l hpk'
            rw [e, e]
            exact ih
  unfold Obj.get Obj.set
  split_ifs
  · rw [hmap]
  · rw [List.find?_append]
    cases hfind : o.find? (fun p => p.1 == k') with
    | some p => simp
    | none => simp [List.find?_cons, hk]

/-- After `Object.assign`, a property that the source lacks is the target's. -/
theorem Obj.get_assign_of_not_mem (target source : Obj) (k : String)
    (h : k ∉ source.map Prod.fst) :
    Obj.get (Obj.assign target source) k = Obj.get target k := by
  unfold Obj.assign
  induction source generalizing target with
  | nil => rfl
  | cons p s ih =>
      simp only [List.map_cons, List.mem_cons, not_or] at h
      simp only [List.foldl_cons]
      rw [ih _ h.2, Obj.get_set_ne _ _ _ _ h.1]

/-- After `Object.assign` from an object, a property of the source is the
source's. -/
theorem Obj.get_assign_of_mem (target source : Obj) (k : String)
    (hnodup : (source.map Prod.fst).Nodup) (h : k ∈ source.map Prod.fst) :
    Obj.get (Obj.assign target source) k = Obj.get source k := by
  induction source generalizing target with
  | nil => simp at h
  | cons p s ih =>
      simp only [List.map_cons, List.nodup_cons] at hnodup
      have hstep : Obj.assign target (p :: s) = Obj.assign (Obj.set target p.1 p.2) s := rfl
      rw [hstep]
      by_cases hk : k = p.1
      · subst hk
        rw [Obj.get_assign_of_not_mem _ _ _ hnodup.1, Obj.get_set_self]
        simp [Obj.get]
      · simp only [List.map_cons, List.mem_cons, hk, false_or] at h
        rw [ih _ hnodup.2 h]
        have hpk : (p.1 == k) = false := by simpa using fun e => hk e.symm
        simp [Obj.get, List.find?_cons, hpk]

/-- The copy `Object.assign({}, o)` of an object has the properties of the object. -/
theorem Obj.get_copy (o : Obj) (k : String) (hnodup : (o.map Prod.fst).Nodup) :
    Obj.get (Obj.assign [] o) k = Obj.get o k := by
  by_cases h : k ∈ o.map Prod.fst
  · exact Obj.get_assign_of_mem [] o k hnodup h
  · rw [Obj.get_assign_of_not_mem [] o k h]
    have : o.find? (fun p => p.1 == k) = none := by
      rw [List.find?_eq_none]
      intro p hp hk
      exact h (List.mem_map.mpr ⟨p, hp, by simpa using hk⟩)
    simp [Obj.get, this]

/-- The variables of the event overlay any object. -/
theorem Obj.get_assign_eventVars (o : Obj) (ev : AnalyticsEvent) :
    Obj.get (Obj.assign o (eventVars ev)) "pid" = .str ev.pid ∧
    Obj.get (Obj.assign o (eventVars ev)) "uuid" = .str ev.uuid ∧
    Obj.get (Obj.assign o (eventVars ev)) "kv" = .kv ev.kv ∧
    ∀ k, k ≠ "pid" → k ≠ "uuid" → k ≠ "kv" →
      Obj.get (Obj.assign o (eventVars ev)) k = Obj.get o k := by
  have hassign : Obj.assign o (eventVars ev) =
      Obj.set (Obj.set (Obj.set o "pid" (.str ev.pid)) "uuid" (.str ev.uuid)) "kv"
        (.kv ev.kv) := rfl
  rw [hassign]
  refine ⟨?_, ?_, ?_, ?_⟩
  · rw [Obj.get_set_ne _ _ _ _ (by decide), Obj.get_set_ne _ _ _ _ (by decide),
      Obj.get_set_self]
  · rw [Obj.get_set_ne _ _ _ _ (by decide), Obj.get_set_self]
  · rw [Obj.get_set_self]
  · intro k h1 h2 h3
    rw [Obj.get_set_ne _ _ _ _ h3, Obj.get_set_ne _ _ _ _ h2, Obj.get_set_ne _ _ _ _ h1]

/-- C14: the ad of `buildFallbackFor` is a fallback without creative whose
`campaignId` is the event's `cid`, or null when that is falsy. With a truthy
`template.fallback` its html is the rendering of that source with the fallback
variables overlaid by the event's `pid`, `uuid` and `kv`; otherwise it is the
rendering of the built-in template with `pid`, `uuid` and `kv` only, whatever
the fallback variables. -/
theorem buildFallbackFor_spec (w : World) (t : Template) (fv : Option Obj)
    (ev : AnalyticsEvent) (hfv : ((fv.getD []).map Prod.fst).Nodup) :
    (buildFallbackFor w t fv ev).fallback = true ∧
    (buildFallbackFor w t fv ev).creativeId = .null ∧
    (buildFallbackFor w t fv ev).campaignId = (if ev.cid.truthy then ev.cid else .null) ∧
    (t.hasFallback = true →
      ∃ V : Obj, (buildFallbackFor w t fv ev).html = w.render (t.fallback.getD "") V ∧
        t.fallback = some (t.fallback.getD "") ∧
        Obj.get V "pid" = .str ev.pid ∧ Obj.get V "uuid" = .str ev.uuid ∧
        Obj.get V "kv" = .kv ev.kv ∧
        ∀ k, k ≠ "pid" → k ≠ "uuid" → k ≠ "kv" → Obj.get V k = Obj.get (fv.getD []) k) ∧
    (t.hasFallback = false →
      (buildFallbackFor w t fv ev).html = w.render w.fallbackFallback
        [("pid", .str ev.pid), ("uuid", .str ev.uuid), ("kv", .kv ev.kv)] ∧
      ∀ fv', buildFallbackFor w t fv' ev = buildFallbackFor w t fv ev) := by
  obtain ⟨hf, hc, hid⟩ := buildFallbackFor_fields w t fv ev
  refine ⟨hf, hc, hid, ?_, ?_⟩
  · intro ht
    obtain ⟨h1, h2, h3, h4⟩ := Obj.get_assign_eventVars (Obj.assign [] (fv.getD [])) ev
    refine ⟨Obj.assign (Obj.assign [] (fv.getD [])) (eventVars ev), ?_, ?_, h1, h2, h3, ?_⟩
    · simp [buildFallbackFor, ht, eventVars]
    · unfold Template.hasFallback at ht
      cases hfb : t.fallback with
      | none => rw [hfb] at ht; simp at ht
      | some s => simp
    · intro k hk1 hk2 hk3
      rw [h4 k hk1 hk2 hk3, Obj.get_copy _ _ hfv]
  · intro ht
    constructor
    · simp [buildFallbackFor, ht]
    · intro fv'
      simp [buildFallbackFor, ht]

/-- The instance of C11 for a plain object with an empty id. -/
theorem buildAdFor_fallback_cases_witness :
    buildAdFor demoWorld 0 (.bare (.str "")) demoTemplate (some []) demoEvent =
      .ok (buildFallbackFor demoWorld demoTemplate (some []) demoEvent) ∧
    (buildFallbackFor demoWorld demoTemplate (some []) demoEvent).fallback = true ∧
    (buildFallbackFor demoWorld demoTemplate (some []) demoEvent).creativeId = .null ∧
    Step.buildFallbackFor ∈
      buildAdForSteps demoWorld 0 (.bare (.str "")) demoTemplate (some []) demoEvent ∧
    ∀ vars, Step.render .html vars ∉
      buildAdForSteps demoWorld 0 (.bare (.str "")) demoTemplate (some []) demoEvent :=
  buildAdFor_fallback_cases demoWorld 0 (.bare (.str "")) demoTemplate (some []) demoEvent
    (Or.inl rfl)

/-- The instance of C12 for the campaign of the small instance. -/
theorem buildAdFor_rendered_witness :
    buildAdFor demoWorld 0 (.doc demoCampaign) demoTemplate (some []) demoEvent =
      .ok { campaignId := .str "c1", creativeId := .str "k1", fallback := false,
            html := "<div></div>" } ∧
    Step.buildFallbackFor ∉
      buildAdForSteps demoWorld 0 (.doc demoCampaign) demoTemplate (some []) demoEvent :=
  have h := buildAdFor_rendered demoWorld 0 demoCampaign demoTemplate (some []) demoEvent
    { id := "k1", active := true, imageId := none } none rfl rfl rfl
  ⟨h.1, h.2.2.2.2.2.2.2.2.2⟩

/-- The instance of C14 for the fallback variables of the test. -/
theorem buildFallbackFor_spec_witness :
    (buildFallbackFor demoWorld beaconTemplate (some [("foo", .str "Variable here!")])
      demoEvent).campaignId = .str "5aabc20d62a17f0001bbcba4" ∧
    (buildFallbackFor demoWorld beaconTemplate (some [("foo", .str "Variable here!")])
      demoEvent).fallback = true :=
  have h := buildFallbackFor_spec demoWorld beaconTemplate
    (some [("foo", .str "Variable here!")]) demoEvent (by decide)
  ⟨h.2.2.1, h.1⟩

/-- C15: `buildFallbackFor` makes one call of the renderer, and the variables
of that call hold no generated beacon: with a truthy `template.fallback` the
variable `beacon` is what the caller's fallback variables hold, otherwise it is
undefined. On the input of the test (a fallback source that refers to `beacon`)
the variables are `foo`, `pid`, `uuid` and `kv`. -/
theorem buildFallbackFor_no_beacon (w : World) (t : Template) (fv : Option Obj)
    (ev : AnalyticsEvent) :
    (∃ src vars, buildFallbackForSteps t fv ev = [Step.render src vars] ∧
      (buildFallbackFor w t fv ev).html = w.render (src.text w t) vars ∧
      (t.hasFallback = true →
        Obj.get vars "beacon" = Obj.get (Obj.assign [] (fv.getD [])) "beacon") ∧
      (t.hasFallback = false → Obj.get vars "beacon" = .undefined)) ∧
    buildFallbackForSteps beaconTemplate (some [("foo", .str "Variable here!")]) demoEvent =
      [Step.render .fallback
        [("foo", .str "Variable here!"), ("pid", .str "5aa03a87be66ee000110c13b"),
         ("uuid", .str "92e998a7-e596-4747-a233-09108938c8d4"), ("kv", .kv [])]] ∧
    Obj.get [("foo", .str "Variable here!"), ("pid", .str "5aa03a87be66ee000110c13b"),
         ("uuid", .str "92e998a7-e596-4747-a233-09108938c8d4"), ("kv", .kv [])] "beacon"
      = .undefined := by
  refine ⟨?_, by decide, by decide⟩
  unfold buildFallbackForSteps buildFallbackFor
  split_ifs with ht
  · refine ⟨_, _, rfl, rfl, ?_, ?_⟩
    · intro _
      exact (Obj.get_assign_eventVars _ ev).2.2.2 "beacon" (by decide) (by decide) (by decide)
    · intro h
      rw [ht] at h
      cases h
  · refine ⟨_, _, rfl, rfl, ?_, ?_⟩
    · intro h
      exact absurd h ht
    · intro _
      rfl

/-! ### The analytics events and the request URL -/

/-- A call whose limit is 1 constructs one request event, for its one candidate. -/
theorem findFor_one_event (w : World) (ch : Chance) (req : Request) (pl : Placement)
    (t : Template) (hres : getPlacementAndTemplate w req.placementId = .ok (pl, t))
    (hlim : normalizeLimit (defaultNum req.num) = .int 1) :
    ∃ cand : Candidate, createdEvents (findFor w ch req).calls =
      [createRequestEvent w (ch.uuid 0) ch.now cand.id pl.id req.userAgent
        (defaultVars req.vars).custom req.ipAddress] := by
  have hgt : (normalizeLimit (defaultNum req.num)).gt 1 = false := by rw [hlim]; decide
  have hlen : (queryCampaigns w ch.shuffle ch.now pl.id
      (defaultVars req.vars).custom (.int 1)).length ≤ 1 := by
    have := selectCampaigns_length ch.shuffle
      (find w.campaigns (queryCriteria ch.now pl.id)) 1
    simp only [queryCampaigns]
    exact_mod_cast this.le.trans (Nat.min_le_right _ _)
  rw [findFor_resolved w ch req pl t hres hgt, hlim]
  by_cases hq : ch.random ≥ reservePct pl.reservePct w.accountReservePct
  · obtain ⟨cand, hc, _⟩ := candidates_one _ hlen
    refine ⟨cand, ?_⟩
    simp only [if_pos hq, hc]
    simp [createdEvents, indexed, deliver, List.range_succ]
  · refine ⟨Candidate.placeholder, ?_⟩
    have hfill : fillWithFallbacks [] (.int 1) = [Candidate.placeholder] := by decide
    simp only [if_neg hq, hfill]
    simp [createdEvents, indexed, deliver, List.range_succ]

/-- The store operations of `buildAdFor` are reads. -/
theorem buildAdForOps_reads (draw : Nat) (cand : Candidate) (ev : AnalyticsEvent) :
    StoreOp.saveEvent ev ∉ buildAdForOps draw cand := by
  unfold buildAdForOps
  split_ifs
  · simp
  · cases cand with
    | bare i => simp
    | doc c =>
        simp only [getCreativeForOps]
        split_ifs
        · simp
        · split
          · simp
          · split
            · split_ifs <;> simp
            · simp

/-- No store operation of `findFor` saves an event. -/
theorem findForOps_reads (w : World) (ch : Chance) (req : Request) (ev : AnalyticsEvent) :
    StoreOp.saveEvent ev ∉ findForOps w ch req := by
  have hflat : ∀ cs : List Candidate,
      StoreOp.saveEvent ev ∉ (indexed cs).flatMap fun p =>
        buildAdForOps (ch.creative p.1) p.2 := by
    intro cs hmem
    rw [List.mem_flatMap] at hmem
    obtain ⟨p, _, hp⟩ := hmem
    exact buildAdForOps_reads _ _ ev hp
  unfold findForOps
  split
  · split_ifs
    · simp
    · split
      · simp
      · split
        · simp
        · intro hmem
          simp only [List.mem_cons, StoreOp.saveEvent.injEq, reduceCtorEq, false_or] at hmem
          split_ifs at hmem with hgt hq
          · simp at hmem
          · rw [List.mem_append] at hmem
            rcases hmem with h | h
            · simp at h
            · exact hflat _ h
          · rw [List.mem_append] at hmem
            rcases hmem with h | h
            · simp at h
            · exact hflat _ h
  · simp

/-- Operations that save nothing leave the event collection as it was. -/
theorem eventsAfter_of_reads (events : List AnalyticsEvent) (ops : List StoreOp)
    (h : ∀ ev, StoreOp.saveEvent ev ∉ ops) : eventsAfter events ops = events := by
  unfold eventsAfter
  have : ops.filterMap (fun op =>
      match op with
      | .saveEvent e => some e
      | .read _ => none) = [] := by
    rw [List.filterMap_eq_nil_iff]
    intro op hop
    cases op with
    | read c => rfl
    | saveEvent e => exact absurd hop (h e)
  rw [this, List.append_nil]

/-- C18: a call of `findFor` that returns one ad constructs one event of type
`request` with the placement's id, and saves none: no store operation of the
call is the saving of an event, the event collection is after the call what it
was before, and a search by the placement's id in a collection that was empty
finds nothing. -/
theorem findFor_saves_no_event (w : World) (ch : Chance) (req : Request) (pl : Placement)
    (t : Template) (hres : getPlacementAndTemplate w req.placementId = .ok (pl, t))
    (hlim : normalizeLimit (defaultNum req.num) = .int 1) :
    (∃ ad ev, (findFor w ch req).result = .ok [ad] ∧
      createdEvents (findFor w ch req).calls = [ev] ∧ ev.e = "request" ∧ ev.pid = pl.id) ∧
    (∀ ev, StoreOp.saveEvent ev ∉ findForOps w ch req) ∧
    (∀ events, eventsAfter events (findForOps w ch req) = events) ∧
    findEventByPid (eventsAfter [] (findForOps w ch req)) pl.id = none := by
  obtain ⟨_, ad, _, had, _⟩ := findFor_one w ch req pl t hres hlim
  obtain ⟨cand, hev⟩ := findFor_one_event w ch req pl t hres hlim
  have hreads := findForOps_reads w ch req
  refine ⟨⟨ad, _, had, hev, rfl, rfl⟩, hreads, fun events =>
    eventsAfter_of_reads events _ hreads, ?_⟩
  rw [eventsAfter_of_reads [] _ hreads]
  rfl

/-- The instance of C18 on the small instance. -/
theorem findFor_saves_no_event_witness :
    (∃ ad ev, (findFor demoWorld demoChance (demoRequest (.number (.int 1)))).result
        = .ok [ad] ∧
      createdEvents (findFor demoWorld demoChance (demoRequest (.number (.int 1)))).calls
        = [ev] ∧ ev.e = "request" ∧ ev.pid = demoPlacement.id) ∧
    (∀ ev, StoreOp.saveEvent ev ∉
      findForOps demoWorld demoChance (demoRequest (.number (.int 1)))) ∧
    (∀ events, eventsAfter events
      (findForOps demoWorld demoChance (demoRequest (.number (.int 1)))) = events) ∧
    findEventByPid (eventsAfter []
      (findForOps demoWorld demoChance (demoRequest (.number (.int 1))))) demoPlacement.id
      = none :=
  findFor_saves_no_event demoWorld demoChance (demoRequest (.number (.int 1))) demoPlacement
    demoTemplate (demo_resolved _) (by decide)

/-- C20: `findFor` does not read a request URL. The outcome is the same for
every `requestURL`; without one, or with the empty one, a call with a found
placement and template and limit 1 returns one ad, and the error
`No request URL was provided` is never raised. -/
theorem findFor_without_requestURL (w : World) (ch : Chance) (req : Request) (pl : Placement)
    (t : Template) (hres : getPlacementAndTemplate w req.placementId = .ok (pl, t))
    (hlim : normalizeLimit (defaultNum req.num) = .int 1) :
    (∀ url, findFor w ch { req with requestURL := url } = findFor w ch req) ∧
    (∃ ad, (findFor w ch { req with requestURL := none }).result = .ok [ad]) ∧
    (∃ ad, (findFor w ch { req with requestURL := some "" }).result = .ok [ad]) ∧
    (∀ url, (findFor w ch { req with requestURL := url }).result ≠
      .error (.http 400 "No request URL was provided")) := by
  have hsame : ∀ url, findFor w ch { req with requestURL := url } = findFor w ch req :=
    fun _ => rfl
  obtain ⟨_, ad, _, had, _⟩ := findFor_one w ch req pl t hres hlim
  refine ⟨hsame, ⟨ad, by rw [hsame]; exact had⟩, ⟨ad, by rw [hsame]; exact had⟩, ?_⟩
  intro url
  rw [hsame, had]
  simp

/-- The instance of C20 on the small instance. -/
theorem findFor_without_requestURL_witness :
    (∀ url, findFor demoWorld demoChance { demoRequest .undefined with requestURL := url } =
      findFor demoWorld demoChance (demoRequest .undefined)) ∧
    (∃ ad, (findFor demoWorld demoChance
      { demoRequest .undefined with requestURL := none }).result = .ok [ad]) ∧
    (∃ ad, (findFor demoWorld demoChance
      { demoRequest .undefined with requestURL := some "" }).result = .ok [ad]) ∧
    (∀ url, (findFor demoWorld demoChance
      { demoRequest .undefined with requestURL := url }).result ≠
      .error (.http 400 "No request URL was provided")) :=
  findFor_without_requestURL demoWorld demoChance (demoRequest .undefined) demoPlacement
    demoTemplate (demo_resolved _) (by decide)

/-! ### Placement and template, options, stories -/

/-- Without a placement of the id the call fails with status 404. -/
theorem getPlacementAndTemplate_no_placement (w : World) (pid : String) (h : pid ≠ "")
    (hpl : w.placements.find? (fun p => p.id == pid) = none) :
    getPlacementAndTemplate w (.str pid) =
      .error (.http 404 ("No placement exists for ID \x27" ++ pid ++ "\x27")) := by
  simp [getPlacementAndTemplate, h, hpl]

/-- Without a template of the placement's `templateId` the call fails with
status 404. -/
theorem getPlacementAndTemplate_no_template (w : World) (pid : String) (h : pid ≠ "")
    (pl : Placement) (hpl : w.placements.find? (fun p => p.id == pid) = some pl)
    (ht : w.templates.find? (fun t => t.id == pl.templateId) = none) :
    getPlacementAndTemplate w (.str pid) =
      .error (.http 404 ("No template exists for ID \x27" ++ pl.templateId ++ "\x27")) := by
  simp [getPlacementAndTemplate, h, hpl, ht]

/-- With both documents found the call returns them. -/
theorem getPlacementAndTemplate_found (w : World) (pid : String) (h : pid ≠ "")
    (pl : Placement) (hpl : w.placements.find? (fun p => p.id == pid) = some pl)
    (t : Template) (ht : w.templates.find? (fun t => t.id == pl.templateId) = some t) :
    getPlacementAndTemplate w (.str pid) = .ok (pl, t) := by
  simp [getPlacementAndTemplate, h, hpl, ht]

/-- C21: `getPlacementAndTemplate` fails with the 400 error
`No placement ID was provided.` exactly when the id is falsy, and then without
any lookup. For a non-empty id it fails with a 404 error exactly when no
placement has the id or, the placement found, no template has the placement's
`templateId`; it returns `(pl, t)` exactly when `pl` is the placement found for
the id and `t` the template found for `pl.templateId`. -/
theorem getPlacementAndTemplate_spec (w : World) (placementId : JSId) :
    (getPlacementAndTemplate w placementId =
        .error (.http 400 "No placement ID was provided.") ↔ placementId.truthy = false) ∧
    (placementId.truthy = false → getPlacementAndTemplateOps w placementId = []) ∧
    (∀ pid, placementId = .str pid → pid ≠ "" →
      ((∃ message, getPlacementAndTemplate w placementId = .error (.http 404 message)) ↔
        (w.placements.find? (fun p => p.id == pid) = none ∨
          ∃ pl, w.placements.find? (fun p => p.id == pid) = some pl ∧
            w.templates.find? (fun t => t.id == pl.templateId) = none)) ∧
      (∀ pl t, getPlacementAndTemplate w placementId = .ok (pl, t) ↔
        (w.placements.find? (fun p => p.id == pid) = some pl ∧
          w.templates.find? (fun t => t.id == pl.templateId) = some t)) ∧
      (∀ pl t, getPlacementAndTemplate w placementId = .ok (pl, t) →
        pl ∈ w.placements ∧ pl.id = pid ∧ t ∈ w.templates ∧ t.id = pl.templateId) ∧
      (w.placements.find? (fun p => p.id == pid) = none ↔ ∀ p ∈ w.placements, p.id ≠ pid)) := by
  refine ⟨?_, ?_, ?_⟩
  · cases placementId with
    | undefined => simp [getPlacementAndTemplate, JSId.truthy]
    | null => simp [getPlacementAndTemplate, JSId.truthy]
    | str pid =>
        by_cases h : pid = ""
        · simp [getPlacementAndTemplate, JSId.truthy, h]
        · have ht : (JSId.str pid).truthy = true := by simpa [JSId.truthy] using h
          rw [ht]
          cases hpl : w.placements.find? (fun p => p.id == pid) with
          | none => simp [getPlacementAndTemplate_no_placement w pid h hpl]
          | some pl =>
              cases htp : w.templates.find? (fun t => t.id == pl.templateId) with
              | none => simp [getPlacementAndTemplate_no_template w pid h pl hpl htp]
              | some t => simp [getPlacementAndTemplate_found w pid h pl hpl t htp]
  · intro h
    cases placementId with
    | undefined => rfl
    | null => rfl
    | str pid =>
        have : pid = "" := by simpa [JSId.truthy] using h
        simp [getPlacementAndTemplateOps, this]
  · intro pid hp hne
    subst hp
    have hmem : w.placements.find? (fun p => p.id == pid) = none ↔
        ∀ p ∈ w.placements, p.id ≠ pid := by
      rw [List.find?_eq_none]
      simp
    cases hpl : w.placements.find? (fun p => p.id == pid) with
    | none =>
        rw [getPlacementAndTemplate_no_placement w pid hne hpl]
        rw [hpl] at hmem
        refine ⟨by simp, by simp, by simp, hmem⟩
    | some pl =>
        rw [hpl] at hmem
        cases htp : w.templates.find? (fun t => t.id == pl.templateId) with
        | none =>
            rw [getPlacementAndTemplate_no_template w pid hne pl hpl htp]
            refine ⟨⟨fun _ => Or.inr ⟨pl, rfl, htp⟩, fun _ => ⟨_, rfl⟩⟩, ?_, by simp, hmem⟩
            intro pl' t'
            constructor
            · intro he
              cases he
            · rintro ⟨h1, h2⟩
              cases h1
              rw [htp] at h2
              cases h2
        | some t =>
            rw [getPlacementAndTemplate_found w pid hne pl hpl t htp]
            refine ⟨⟨?_, ?_⟩, ?_, ?_, hmem⟩
            · rintro ⟨m, hm⟩
              cases hm
            · rintro (h | ⟨pl', h1, h2⟩)
              · cases h
              · cases h1
                rw [htp] at h2
                cases h2
            · intro pl' t'
              constructor
              · intro he
                cases he
                exact ⟨rfl, htp⟩
              · rintro ⟨h1, h2⟩
                cases h1
                rw [htp] at h2
                cases h2
                rfl
            · intro pl' t' he
              cases he
              have h1 := List.find?_some hpl
              have h2 := List.find?_some htp
              exact ⟨List.mem_of_find?_eq_some hpl, by simpa using h1,
                List.mem_of_find?_eq_some htp, by simpa using h2⟩

/-- C22: `parseOptions` returns the empty object for every falsy argument
(`null`, `undefined`, the empty string, `0`), for every argument whose string
form cannot be made or is not valid JSON (`somestring`), and the parsed object
for every truthy argument whose string form is the JSON text of an object
(the text of `foo: bar` gives the object with `foo` equal to `bar`); it is
total, so it never throws. -/
theorem parseOptions_spec (parse : String → Option Json) (options : OptionsArg)
    (hbad : parse "somestring" = none)
    (hgood : parse "\x7b\x22foo\x22:\x22bar\x22\x7d" = some (.obj [("foo", .str "bar")])) :
    (options.truthy = false → parseOptions parse options = .obj []) ∧
    (options.string = none → parseOptions parse options = .obj []) ∧
    (∀ text, options.string = some text → parse text = none →
      parseOptions parse options = .obj []) ∧
    (∀ text members, options.truthy = true → options.string = some text →
      parse text = some (.obj members) → parseOptions parse options = .obj members) ∧
    parseOptions parse .null = .obj [] ∧
    parseOptions parse .undefined = .obj [] ∧
    parseOptions parse (.str "") = .obj [] ∧
    parseOptions parse .zero = .obj [] ∧
    parseOptions parse (.str "somestring") = .obj [] ∧
    parseOptions parse (.str "\x7b\x22foo\x22:\x22bar\x22\x7d") =
      .obj [("foo", .str "bar")] := by
  refine ⟨?_, ?_, ?_, ?_, rfl, rfl, rfl, rfl, ?_, ?_⟩
  · intro h
    simp [parseOptions, h]
  · intro h
    unfold parseOptions
    split_ifs
    · rfl
    · rw [h]
  · intro text h1 h2
    unfold parseOptions
    split_ifs
    · rfl
    · rw [h1]
      simp only
      rw [h2]
  · intro text members h0 h1 h2
    unfold parseOptions
    rw [if_neg (by simp [h0]), h1]
    simp only
    rw [h2]
  · simp [parseOptions, OptionsArg.truthy, OptionsArg.string, hbad]
  · simp [parseOptions, OptionsArg.truthy, OptionsArg.string, hgood]

/-- The instance of C22 for the stand-in parser. -/
theorem parseOptions_spec_witness :
    parseOptions demoParse (.str "somestring") = .obj [] ∧
    parseOptions demoParse (.str "\x7b\x22foo\x22:\x22bar\x22\x7d") =
      .obj [("foo", .str "bar")] ∧
    parseOptions demoParse .zero = .obj [] :=
  have h := parseOptions_spec demoParse .zero
    (by unfold demoParse; rw [if_neg (by decide)])
    (by unfold demoParse; rw [if_pos rfl])
  ⟨h.2.2.2.2.2.2.2.2.1, h.2.2.2.2.2.2.2.2.2, h.2.2.2.2.2.2.2.1⟩

/-- The story that `updateStory` saves for a stored story. -/
theorem updateStory_found (stories : List Story) (id : String) (payload : StoryPayload)
    (story : Story) (h : stories.find? (fun s => s.id == id) = some story) :
    updateStory true stories id payload =
      .ok { story with
            title := payload.title, teaser := payload.teaser, body := payload.body,
            advertiserId := payload.advertiserId, publishedAt := payload.publishedAt,
            disposition :=
              if story.disposition = "Deleted" then "Deleted"
              else dispositionFor payload.publishedAt } := by
  simp [updateStory, h]

/-- C24: `updateStory` never resurrects a deleted story. For a stored story whose
disposition is `Deleted` the disposition saved is `Deleted`, whatever the
payload; for any other stored story it is `Ready` when the payload's
`publishedAt` is set and `Draft` otherwise, which is the disposition that
`createStory` assigns. -/
theorem updateStory_disposition (stories : List Story) (id : String)
    (payload : StoryPayload) :
    (updateStory false stories id payload = .error .unauthorized) ∧
    (stories.find? (fun s => s.id == id) = none →
      ∃ message, updateStory true stories id payload = .error (.error message)) ∧
    (∀ story, stories.find? (fun s => s.id == id) = some story →
      ∃ saved, updateStory true stories id payload = .ok saved ∧
        saved.id = story.id ∧
        (story.disposition = "Deleted" → saved.disposition = "Deleted") ∧
        (story.disposition ≠ "Deleted" →
          saved.disposition = (if payload.publishedAt.isSome then "Ready" else "Draft") ∧
          ∃ draft, createStory true payload = .ok draft ∧
            draft.disposition = saved.disposition)) ∧
    (∃ draft, createStory true payload = .ok draft ∧
      draft.disposition = (if payload.publishedAt.isSome then "Ready" else "Draft")) ∧
    (∃ saved, updateStory true [demoStory] "s1" payload = .ok saved ∧
      saved.disposition = "Deleted") := by
  refine ⟨rfl, ?_, ?_, ⟨_, rfl, rfl⟩, ⟨_, rfl, rfl⟩⟩
  · intro h
    exact ⟨"Unable to update story: no record was found for ID \x27" ++ id ++ "\x27",
      by simp [updateStory, h]⟩
  · intro story h
    have hsaved := updateStory_found stories id payload story h
    refine ⟨_, hsaved, rfl, ?_, ?_⟩
    · intro hd
      simp [hd]
    · intro hd
      refine ⟨by simp [hd, dispositionFor], _, rfl, by simp [hd, createStory]⟩

/-! ### The campaign of an ad -/

/-- A campaign that `queryCampaigns` returns is a stored campaign. -/
theorem queryCampaigns_subset (w : World) (draw : Nat → Nat) (startDate : Int)
    (placementId : String) (kv : KV) (limit : Nat) (c : Campaign)
    (h : c ∈ queryCampaigns w draw startDate placementId kv (.int (limit : Int))) :
    c ∈ w.campaigns := by
  simp only [queryCampaigns] at h
  have h1 := (selectCampaigns_subperm draw
    (find w.campaigns (queryCriteria startDate placementId)) limit).subset h
  exact (List.mem_filter.mp h1).1

/-- A call whose limit is 1: its one candidate, the event constructed for it and
the ad built for it. -/
theorem findFor_one_calls (w : World) (ch : Chance) (req : Request) (pl : Placement)
    (t : Template) (hres : getPlacementAndTemplate w req.placementId = .ok (pl, t))
    (hlim : normalizeLimit (defaultNum req.num) = .int 1) :
    ∃ (cand : Candidate) (ad : Ad),
      buildAdFor w (ch.creative 0) cand t (defaultVars req.vars).fallback
        (createRequestEvent w (ch.uuid 0) ch.now cand.id pl.id req.userAgent
          (defaultVars req.vars).custom req.ipAddress) = .ok ad ∧
      (findFor w ch req).result = .ok [ad] ∧
      builtCandidates (findFor w ch req).calls = [cand] ∧
      createdEvents (findFor w ch req).calls =
        [createRequestEvent w (ch.uuid 0) ch.now cand.id pl.id req.userAgent
          (defaultVars req.vars).custom req.ipAddress] ∧
      (cand = Candidate.placeholder ∨ ∃ c ∈ w.campaigns, cand = Candidate.doc c) := by
  have hgt : (normalizeLimit (defaultNum req.num)).gt 1 = false := by rw [hlim]; decide
  have hlen : (queryCampaigns w ch.shuffle ch.now pl.id
      (defaultVars req.vars).custom (.int 1)).length ≤ 1 := by
    have := selectCampaigns_length ch.shuffle
      (find w.campaigns (queryCriteria ch.now pl.id)) 1
    simp only [queryCampaigns]
    exact_mod_cast this.le.trans (Nat.min_le_right _ _)
  rw [findFor_resolved w ch req pl t hres hgt, hlim]
  by_cases hq : ch.random ≥ reservePct pl.reservePct w.accountReservePct
  · obtain ⟨cand, hc, hshape⟩ := candidates_one _ hlen
    have hcand : cand = Candidate.placeholder ∨ ∃ c ∈ w.campaigns, cand = Candidate.doc c := by
      rcases hshape with ⟨_, h⟩ | ⟨c, hc1, h⟩
      · exact Or.inl h
      · refine Or.inr ⟨c, ?_, h⟩
        apply queryCampaigns_subset w ch.shuffle ch.now pl.id (defaultVars req.vars).custom 1
        show c ∈ queryCampaigns w ch.shuffle ch.now pl.id (defaultVars req.vars).custom
          (.int 1)
        rw [hc1]
        simp
    have hcand' : cand = Candidate.placeholder ∨ ∃ c, cand = Candidate.doc c := by
      rcases hcand with h | ⟨c, _, h⟩
      · exact Or.inl h
      · exact Or.inr ⟨c, h⟩
    obtain ⟨ad, had⟩ := buildAdFor_ok w (ch.creative 0) cand t
      (defaultVars req.vars).fallback
      (createRequestEvent w (ch.uuid 0) ch.now cand.id pl.id req.userAgent
          (defaultVars req.vars).custom req.ipAddress) hcand'
    refine ⟨cand, ad, had, ?_, ?_, ?_, hcand⟩
    · simp only [if_pos hq, hc]
      simp [indexed, deliver, had, List.range_succ]
      rfl
    · simp only [if_pos hq, hc]
      simp [builtCandidates, indexed, deliver, List.range_succ]
    · simp only [if_pos hq, hc]
      simp [createdEvents, indexed, deliver, List.range_succ]
  · obtain ⟨ad, had⟩ := buildAdFor_ok w (ch.creative 0) Candidate.placeholder t
      (defaultVars req.vars).fallback
      (createRequestEvent w (ch.uuid 0) ch.now Candidate.placeholder.id pl.id req.userAgent
          (defaultVars req.vars).custom req.ipAddress) (Or.inl rfl)
    have hfill : fillWithFallbacks [] (.int 1) = [Candidate.placeholder] := by decide
    refine ⟨Candidate.placeholder, ad, had, ?_, ?_, ?_, Or.inl rfl⟩
    · simp only [if_neg hq, hfill]
      simp [indexed, deliver, had, List.range_succ]
      rfl
    · simp only [if_neg hq, hfill]
      simp [builtCandidates, indexed, deliver, List.range_succ]
    · simp only [if_neg hq, hfill]
      simp [createdEvents, indexed, deliver, List.range_succ]

/-- The ad that `buildAdFor` builds for a placeholder or for a campaign document
with a truthy id carries the candidate's id. -/
theorem buildAdFor_campaignId (w : World) (draw : Nat) (cand : Candidate) (t : Template)
    (fv : Option Obj) (uuid : String) (d : Int) (pid : String) (ua : Option String) (kv : KV)
    (ip : Option String) (ad : Ad)
    (hcand : cand = Candidate.placeholder ∨ ∃ c, cand = Candidate.doc c ∧ c.id.truthy = true)
    (h : buildAdFor w draw cand t fv (createRequestEvent w uuid d cand.id pid ua kv ip)
      = .ok ad) :
    ad.campaignId = cand.id ∧ (ad.campaignId = .null ↔ cand = Candidate.placeholder) ∧
    (ad.fallback = true →
      ad.campaignId = (createRequestEvent w uuid d cand.id pid ua kv ip).cid.orNull) := by
  have hfb : (buildFallbackFor w t fv
      (createRequestEvent w uuid d cand.id pid ua kv ip)).campaignId
        = (createRequestEvent w uuid d cand.id pid ua kv ip).cid.orNull :=
    (buildFallbackFor_fields w t fv _).2.2
  rcases hcand with rfl | ⟨c, rfl, hid⟩
  · have hok : buildAdFor w draw Candidate.placeholder t fv
        (createRequestEvent w uuid d Candidate.placeholder.id pid ua kv ip) =
        .ok (buildFallbackFor w t fv
          (createRequestEvent w uuid d Candidate.placeholder.id pid ua kv ip)) := by
      simp [buildAdFor, Candidate.placeholder, Candidate.id, JSId.truthy]
    rw [hok] at h
    cases h
    refine ⟨?_, ?_, fun _ => hfb⟩
    · rw [hfb]; rfl
    · rw [hfb]
      exact ⟨fun _ => rfl, fun _ => rfl⟩
  · have hcid : (createRequestEvent w uuid d (Candidate.doc c).id pid ua kv ip).cid.orNull
        = c.id := by
      simp [createRequestEvent, Candidate.id, JSId.orUndefined, JSId.orNull, hid]
    have hne : c.id ≠ .null := JSId.ne_null_of_truthy c.id hid
    rcases buildAdFor_cases w draw (.doc c) t fv _ ad h with
      ⟨rfl, _⟩ | ⟨c', cr, img, hc', _, _, _, rfl, _⟩
    · rw [hfb, hcid]
      refine ⟨rfl, ⟨fun h0 => absurd h0 hne, fun h0 => ?_⟩, fun _ => rfl⟩
      simp [Candidate.placeholder] at h0
    · cases hc'
      refine ⟨rfl, ⟨fun h0 => absurd h0 hne, fun h0 => ?_⟩, fun hf => ?_⟩
      · simp [Candidate.placeholder] at h0
      · cases hf

/-- C23: when stored campaigns have ids, every ad that `findFor` returns
carries the id of the candidate it was built for, whether it was rendered from
a creative or fell back; its `campaignId` is null exactly when the candidate is
the placeholder `{ id: null }`. The event's `cid` is the candidate's id or
absent, and a fallback ad takes its `campaignId` from the event. -/
theorem findFor_campaignId (w : World) (ch : Chance) (req : Request) (pl : Placement)
    (t : Template) (hres : getPlacementAndTemplate w req.placementId = .ok (pl, t))
    (hids : ∀ c ∈ w.campaigns, c.id.truthy = true) :
    ∀ ads, (findFor w ch req).result = .ok ads → ∀ ad ∈ ads,
      ∃ cand ev, ads = [ad] ∧ builtCandidates (findFor w ch req).calls = [cand] ∧
        createdEvents (findFor w ch req).calls = [ev] ∧
        ev.cid = cand.id.orUndefined ∧
        ad.campaignId = cand.id ∧
        (ad.campaignId = .null ↔ cand = Candidate.bare .null) ∧
        (ad.fallback = true → ad.campaignId = ev.cid.orNull) := by
  intro ads hads ad hmem
  cases hl : normalizeLimit (defaultNum req.num) with
  | nan =>
      rw [findFor_none w ch req pl t hres (Or.inl hl)] at hads
      cases hads
      simp at hmem
  | int z =>
      have hz := normalizeLimit_nonneg _ z hl
      by_cases h1 : 1 < z
      · have h := (findFor_rejected w ch req pl t hres z hl h1).2
        rw [h] at hads
        split_ifs at hads
      · have hcases : z = 0 ∨ z = 1 := by omega
        rcases hcases with rfl | rfl
        · rw [findFor_none w ch req pl t hres (Or.inr hl)] at hads
          cases hads
          simp at hmem
        · obtain ⟨cand, ad', hbuild, hres', hcands, hevs, hcand⟩ :=
            findFor_one_calls w ch req pl t hres hl
          rw [hres'] at hads
          cases hads
          simp only [List.mem_singleton] at hmem
          subst hmem
          have hcand' : cand = Candidate.placeholder ∨
              ∃ c, cand = Candidate.doc c ∧ c.id.truthy = true := by
            rcases hcand with h | ⟨c, hc, h⟩
            · exact Or.inl h
            · exact Or.inr ⟨c, h, hids c hc⟩
          obtain ⟨h1, h2, h3⟩ := buildAdFor_campaignId w (ch.creative 0) cand t _ _ _ _ _ _ _
            ad hcand' hbuild
          exact ⟨cand, _, rfl, hcands, hevs, rfl, h1, h2, h3⟩

/-- The instance of C23 on the small instance. -/
theorem findFor_campaignId_witness :
    ∃ ad cand ev,
      (findFor demoWorld demoChance (demoRequest .undefined)).result = .ok [ad] ∧
      builtCandidates (findFor demoWorld demoChance (demoRequest .undefined)).calls
        = [cand] ∧
      createdEvents (findFor demoWorld demoChance (demoRequest .undefined)).calls = [ev] ∧
      ev.cid = cand.id.orUndefined ∧ ad.campaignId = cand.id := by
  obtain ⟨_, ad, _, had, _⟩ := findFor_one demoWorld demoChance (demoRequest .undefined)
    demoPlacement demoTemplate (demo_resolved _) (by decide)
  obtain ⟨cand, ev, _, h1, h2, h3, h4, _⟩ :=
    findFor_campaignId demoWorld demoChance (demoRequest .undefined) demoPlacement
      demoTemplate (demo_resolved _) (by decide) [ad] had ad (by simp)
  exact ⟨ad, cand, ev, had, h1, h2, h3, h4⟩

end Fortnight
